import Mathlib

/-! DGIdGateway: the DG-ID routing loop of `CDGIdGateway::run`

A shallow embedding of `DGIdGateway/DGIdGateway.cpp`: the event loop
(lines 363-480) and the state it works on, the directory build that fills
the slot table (lines 206-352) and the command line of `main` (lines
61-86).  The loop has no `break`, `return` or `goto`, so the lines after it
(482-507) are never reached and are not embedded.

* The slot table `CDGIdNetwork* dgIdNetwork[100]` is a map from an index to an
  optional object identity; the attributes `m_modes`, `m_static`,
  `m_rfHangTime`, `m_netHangTime` live in the object, so that several slots
  may alias one object (the shared IMRS backend).
* Every call the loop makes on a collaborator (repeater link, backends, the
  inactivity timer) is recorded, in program order, in a list of `Action`s.
* What the collaborators return (`read` results, the elapsed milliseconds) is
  an input of the iteration.
* Reading `dgIdNetwork[k]` with `k ≥ 100` and calling a member through a null
  entry are undefined behaviour in the source; the embedding stops the
  iteration there with a `Fault`, keeping the calls made up to that point.
* Logging and the APRS/GPS collaborator (`m_gps`, `m_writer`) do not influence
  routing and are left out, and so is the freeing of objects.
* In the directory build every `new` gives an object a fresh identity; the
  shared IMRS object is created first.  What `findByName`, `lookup` and
  `open()` return is an input of the pass that calls them.
-/

namespace DGIdGateway

/-! ## Constants (lines 56-59) -/

def DT_VD_MODE1 : Nat := 0x01
def DT_VD_MODE2 : Nat := 0x02
def DT_VOICE_FR_MODE : Nat := 0x04
def DT_DATA_FR_MODE : Nat := 0x08

/-- The `YSF_DT_*` data-type codes compared with `fich.getDT()` at lines
401-404.  They are declared in `YSFDefines.h`, which is not among the
sources, and are therefore parameters of the embedding. -/
structure YSFDefines where
  YSF_DT_VD_MODE1 : Nat
  YSF_DT_DATA_FR_MODE : Nat
  YSF_DT_VD_MODE2 : Nat
  YSF_DT_VOICE_FR_MODE : Nat
deriving DecidableEq

/-! ## FICH and frame buffer -/

/-- Modelled from the spec: the `CYSFFICH` class (`YSFFICH.h` is not among the
sources).  The FICH view has the fields FI, DT, FN, FT and DG-ID that the
engine reads; `setDGId` mutates only the DG-ID. -/
structure CYSFFICH where
  fi : Nat
  dt : Nat
  fn : Nat
  ft : Nat
  dgId : Nat
deriving DecidableEq

def CYSFFICH.getDT (f : CYSFFICH) : Nat := f.dt

def CYSFFICH.getDGId (f : CYSFFICH) : Nat := f.dgId

def CYSFFICH.setDGId (f : CYSFFICH) (dgId : Nat) : CYSFFICH := { f with dgId := dgId }

/-- The 200-byte frame buffer of the loop as the engine looks at it: the
four leading bytes (compared with the tag `YSFD`), the FICH held at offset 35
as the codec decodes it (`none` when `decode` reports an invalid FICH), and
the other bytes, which the engine passes through untouched. -/
structure Buffer where
  tag : List Nat
  fich : Option CYSFFICH
  payload : List Nat
deriving DecidableEq

/-- The bytes of the ASCII tag `YSFD`. -/
def YSFD : List Nat := [0x59, 0x53, 0x46, 0x44]

/-- The test `::memcmp(buffer + 0U, "YSFD", 4U) == 0` (lines 368, 428). -/
def Buffer.isYSFD (b : Buffer) : Bool := b.tag == YSFD

/-- Modelled from the spec: `CYSFFICH::decode(buffer + 35U)`, which yields the
FICH fields, or fails. -/
def decode (b : Buffer) : Option CYSFFICH := b.fich

/-- Modelled from the spec: `CYSFFICH::encode(buffer + 35U)`, which writes the
FICH back into the buffer at offset 35 and changes nothing else. -/
def encode (f : CYSFFICH) (b : Buffer) : Buffer := { b with fich := some f }

/-- The FICH DG-ID a buffer carries, when it carries a valid FICH. -/
def Buffer.fichDGId (b : Buffer) : Option Nat := (decode b).map CYSFFICH.getDGId

/-! ## Backends and the slot table -/

/-- The attributes of a `CDGIdNetwork` object that the loop reads. -/
structure CDGIdNetwork where
  m_modes : Nat
  m_static : Bool
  m_rfHangTime : Nat
  m_netHangTime : Nat
deriving DecidableEq

/-- The data the loop works on and never changes: the slot table
(`dgIdNetwork[i]` is `none` for a NULL entry, otherwise the identity of the
object pointed to; only the indices below 100 exist), the objects, and the
`YSF_DT_*` codes. -/
structure Gateway where
  dgIdNetwork : Nat → Option Nat
  net : Nat → CDGIdNetwork
  defs : YSFDefines

/-- The calls the loop makes, with their arguments.  The first argument of a
backend call is the identity of the object it is made on. -/
inductive Action where
  | rptRead
  | rptWrite (buffer : Buffer)
  | rptClock (ms : Nat)
  | read (net : Nat) (dgId : Nat)
  | write (net : Nat) (dgId : Nat) (buffer : Buffer)
  | link (net : Nat)
  | unlink (net : Nat)
  | clock (net : Nat) (ms : Nat)
  | timerSetTimeout (secs : Nat)
  | timerStart
  | timerStop
  | timerClock (ms : Nat)
  | netOpen (net : Nat)
  | netClose (net : Nat)
  | addDGId (net : Nat) (dgId : Nat)
deriving DecidableEq

/-- Undefined behaviour of the source that ends an iteration. -/
inductive Fault where
  | outOfBounds (index : Nat)
  | nullDeref (index : Nat)
deriving DecidableEq

/-! ## The inactivity timer -/

/-- The operations of `CTimer` that the loop calls.  `Timer.h` is not among
the sources, so the timer is a parameter of the embedding: the loop is
defined, and its properties are proved, for every implementation. -/
structure TimerOps (τ : Type) where
  ctor : Nat → τ
  setTimeout : τ → Nat → τ
  start : τ → τ
  stop : τ → τ
  clock : τ → Nat → τ
  isRunning : τ → Bool
  hasExpired : τ → Bool

/-- Modelled from the spec: the `CTimer` class (`Timer.h` is not among the
sources).  A timer set to `T` fires on the first `clock(ms)` whose cumulative
total since it was armed reaches or exceeds `T`. -/
structure CTimer where
  m_ticksPerSec : Nat
  m_timeout : Nat
  m_elapsed : Nat
  m_running : Bool
deriving DecidableEq

/-- The operations of the modelled `CTimer`. -/
def cTimer : TimerOps CTimer where
  ctor := fun ticksPerSec => ⟨ticksPerSec, 0, 0, false⟩
  setTimeout := fun t secs => { t with m_timeout := secs }
  start := fun t => { t with m_elapsed := 0, m_running := true }
  stop := fun t => { t with m_running := false }
  clock := fun t ms => if t.m_running then { t with m_elapsed := t.m_elapsed + ms } else t
  isRunning := fun t => t.m_running
  hasExpired := fun t => t.m_running && decide (t.m_timeout ≤ t.m_elapsed)

/-! ## Loop state and outcomes -/

/-- The variables that live across iterations (lines 213, 356). -/
structure State (τ : Type) where
  currentDGId : Nat
  inactivityTimer : τ

/-- The outcome of a piece of the loop: the state it leaves, the calls it
made in program order, and the fault that stopped it, if any. -/
structure Out (τ : Type) where
  state : State τ
  calls : List Action
  fault : Option Fault

/-- Normal completion. -/
def Out.ok {τ : Type} (s : State τ) (calls : List Action) : Out τ := ⟨s, calls, none⟩

/-- Sequencing: the next piece runs only when the previous one did not fault. -/
def Out.andThen {τ : Type} (o : Out τ) (f : State τ → Out τ) : Out τ :=
  match o.fault with
  | some _ => o
  | none => ⟨(f o.state).state, o.calls ++ (f o.state).calls, (f o.state).fault⟩

/-- What a `read(dgId, buffer)` call returns: the length, and the buffer as the
call leaves it. -/
structure ReadResult where
  len : Nat
  buffer : Buffer
deriving DecidableEq

/-- The inputs of one iteration: the result of `rptNetwork.read`, the result
of `dgIdNetwork[i]->read(i, buffer)` for each slot, and the milliseconds
reported by the stop watch. -/
structure Input where
  rpt : ReadResult
  net : Nat → ReadResult
  ms : Nat

/-! ## Repeater ingress (lines 367-422) -/

/-- Lines 379-383 and 466-470: three `unlink()` calls when the entry is not
NULL and the object is not static. -/
def unlinkCalls (g : Gateway) (entry : Option Nat) : List Action :=
  match entry with
  | some p => if (g.net p).m_static then [] else [Action.unlink p, Action.unlink p, Action.unlink p]
  | none => []

/-- Lines 385-389: three `link()` calls when the entry is not NULL and the
object is not static. -/
def linkCalls (g : Gateway) (entry : Option Nat) : List Action :=
  match entry with
  | some p => if (g.net p).m_static then [] else [Action.link p, Action.link p, Action.link p]
  | none => []

/-- Lines 378-394: the DG-ID switch on a repeater frame whose FICH carries
`dgId`.  Line 391 calls `dgIdNetwork[dgId]->getDesc(dgId)` without a NULL
test. -/
def switchDGId {τ : Type} (g : Gateway) (s : State τ) (dgId : Nat) : Out τ :=
  if dgId ≠ 0 ∧ dgId ≠ s.currentDGId then
    if s.currentDGId < 100 then
      if dgId < 100 then
        match g.dgIdNetwork dgId with
        | some _ =>
          Out.ok { s with currentDGId := dgId }
            (unlinkCalls g (g.dgIdNetwork s.currentDGId) ++ linkCalls g (g.dgIdNetwork dgId))
        | none =>
          ⟨s, unlinkCalls g (g.dgIdNetwork s.currentDGId), some (Fault.nullDeref dgId)⟩
      else
        ⟨s, unlinkCalls g (g.dgIdNetwork s.currentDGId), some (Fault.outOfBounds dgId)⟩
    else
      ⟨s, [], some (Fault.outOfBounds s.currentDGId)⟩
  else
    Out.ok s []

/-- Lines 401-404: the test that lets only the wanted modes through. -/
def modeAllowed (d : YSFDefines) (dt : Nat) (m_modes : Nat) : Bool :=
  (dt == d.YSF_DT_VD_MODE1 && (m_modes &&& DT_VD_MODE1) != 0) ||
  (dt == d.YSF_DT_DATA_FR_MODE && (m_modes &&& DT_DATA_FR_MODE) != 0) ||
  (dt == d.YSF_DT_VD_MODE2 && (m_modes &&& DT_VD_MODE2) != 0) ||
  (dt == d.YSF_DT_VOICE_FR_MODE && (m_modes &&& DT_VOICE_FR_MODE) != 0)

/-- Lines 399-414: forwarding of the repeater frame to the backend of the
current slot, and arming of the inactivity timer. -/
def forwardRpt {τ : Type} (T : TimerOps τ) (g : Gateway) (s : State τ)
    (fich : CYSFFICH) (buffer : Buffer) : Out τ :=
  if s.currentDGId ≠ 0 then
    if s.currentDGId < 100 then
      match g.dgIdNetwork s.currentDGId with
      | some p =>
        Out.ok
          { s with inactivityTimer :=
              T.start (T.setTimeout s.inactivityTimer (g.net p).m_rfHangTime) }
          ((if modeAllowed g.defs fich.getDT (g.net p).m_modes then
              [Action.write p s.currentDGId (encode (fich.setDGId 0) buffer)]
            else []) ++
            [Action.timerSetTimeout (g.net p).m_rfHangTime, Action.timerStart])
      | none => Out.ok s []
    else
      ⟨s, [], some (Fault.outOfBounds s.currentDGId)⟩
  else
    Out.ok s []

/-- Lines 367-422: processing of what `rptNetwork.read(0U, buffer)` returned. -/
def rptIngress {τ : Type} (T : TimerOps τ) (g : Gateway) (s : State τ)
    (rd : ReadResult) : Out τ :=
  if rd.len > 0 then
    if rd.buffer.isYSFD then
      match decode rd.buffer with
      | some fich =>
        (switchDGId g s fich.getDGId).andThen (fun s1 => forwardRpt T g s1 fich rd.buffer)
      | none => Out.ok s []
    else Out.ok s []
  else Out.ok s []

/-! ## Backend ingress (lines 424-449) -/

/-- Lines 425-448: the body of the backend loop for the index `i`; `rd` is
what `dgIdNetwork[i]->read(i, buffer)` returns. -/
def netIngressSlot {τ : Type} (T : TimerOps τ) (g : Gateway) (read : Nat → ReadResult)
    (s : State τ) (i : Nat) : Out τ :=
  match g.dgIdNetwork i with
  | none => Out.ok s []
  | some p =>
    if (read i).len > 0 ∧ (i = s.currentDGId ∨ s.currentDGId = 0) then
      if (read i).buffer.isYSFD then
        match decode (read i).buffer with
        | some fich =>
          Out.ok
            { currentDGId := if s.currentDGId = 0 then i else s.currentDGId,
              inactivityTimer :=
                T.start (T.setTimeout s.inactivityTimer (g.net p).m_netHangTime) }
            [Action.read p i,
             Action.rptWrite (encode (fich.setDGId i) (read i).buffer),
             Action.timerSetTimeout (g.net p).m_netHangTime,
             Action.timerStart]
        | none => Out.ok s [Action.read p i]
      else Out.ok s [Action.read p i]
    else Out.ok s [Action.read p i]

/-- The loop `for (i = lo; i < lo + n; i++)` over the backend slots. -/
def netIngressFrom {τ : Type} (T : TimerOps τ) (g : Gateway) (read : Nat → ReadResult)
    (s : State τ) (lo : Nat) : Nat → Out τ
  | 0 => Out.ok s []
  | n + 1 => (netIngressSlot T g read s lo).andThen (fun s1 => netIngressFrom T g read s1 (lo + 1) n)

/-- Lines 424-449: `for (unsigned int i = 1U; i < 100U; i++)`. -/
def netIngress {τ : Type} (T : TimerOps τ) (g : Gateway) (read : Nat → ReadResult)
    (s : State τ) : Out τ :=
  netIngressFrom T g read s 1 99

/-! ## Tick and inactivity expiry (lines 451-476) -/

/-- Lines 456-459: `clock(ms)` on every non-NULL entry of the range. -/
def clockCalls (g : Gateway) (ms : Nat) (lo : Nat) : Nat → List Action
  | 0 => []
  | n + 1 =>
    (match g.dgIdNetwork lo with
      | some p => [Action.clock p ms]
      | none => []) ++ clockCalls g ms (lo + 1) n

/-- Lines 454-459: the tick of the repeater link and of the backends. -/
def tick {τ : Type} (g : Gateway) (s : State τ) (ms : Nat) : Out τ :=
  Out.ok s (Action.rptClock ms :: clockCalls g ms 1 99)

/-- Lines 465-476: the expiry step, on the state the tick of the timer left. -/
def expiry {τ : Type} (T : TimerOps τ) (g : Gateway) (s : State τ) : Out τ :=
  if T.isRunning s.inactivityTimer && T.hasExpired s.inactivityTimer then
    if s.currentDGId < 100 then
      Out.ok { currentDGId := 0, inactivityTimer := T.stop s.inactivityTimer }
        (unlinkCalls g (g.dgIdNetwork s.currentDGId) ++ [Action.timerStop])
    else
      ⟨s, [], some (Fault.outOfBounds s.currentDGId)⟩
  else
    Out.ok s []

/-- Line 464: `inactivityTimer.clock(ms)`. -/
def timerTick {τ : Type} (T : TimerOps τ) (s : State τ) (ms : Nat) : Out τ :=
  Out.ok { s with inactivityTimer := T.clock s.inactivityTimer ms } [Action.timerClock ms]

/-- Lines 464-476: the timer tick followed by the expiry step. -/
def inactivity {τ : Type} (T : TimerOps τ) (g : Gateway) (s : State τ) (ms : Nat) : Out τ :=
  (timerTick T s ms).andThen (fun s1 => expiry T g s1)

/-! ## One iteration and runs of the loop -/

/-- Lines 364-449: the two ingress steps of an iteration, the read from the
repeater first, then the loop over the backends. -/
def ingress {τ : Type} (T : TimerOps τ) (g : Gateway) (s : State τ) (inp : Input) : Out τ :=
  ((Out.ok s [Action.rptRead]).andThen (fun s1 => rptIngress T g s1 inp.rpt)).andThen
    (fun s2 => netIngress T g inp.net s2)

/-- Lines 364-476: one iteration of `for (;;)`. -/
def iteration {τ : Type} (T : TimerOps τ) (g : Gateway) (s : State τ) (inp : Input) : Out τ :=
  ((ingress T g s inp).andThen (fun s3 => tick g s3 inp.ms)).andThen
    (fun s4 => inactivity T g s4 inp.ms)

/-- The loop run over a finite sequence of inputs, one per iteration. -/
def run {τ : Type} (T : TimerOps τ) (g : Gateway) (s : State τ) : List Input → Out τ
  | [] => Out.ok s []
  | inp :: rest => (iteration T g s inp).andThen (fun s1 => run T g s1 rest)

/-- Lines 213 and 356: the state in which the loop is entered. -/
def startup {τ : Type} (T : TimerOps τ) : State τ :=
  { currentDGId := 0, inactivityTimer := T.ctor 1000 }

/-! ## Sample data for the concrete evaluations

The slot table of the scenarios: slot 5 a static YSF reflector, slots 10
(YSF) and 20 (FCS) non-static with all four modes, slot 30 a YSF2P25 bridge
with the voice-FR mode only; the other entries are NULL.  Each bound slot
points to an object of its own, named by the slot index.  The data-type
codes are 0 to 3 in the order VD mode 1, data FR, VD mode 2, voice FR. -/

def sampleDefs : YSFDefines :=
  { YSF_DT_VD_MODE1 := 0, YSF_DT_DATA_FR_MODE := 1, YSF_DT_VD_MODE2 := 2,
    YSF_DT_VOICE_FR_MODE := 3 }

def sampleGateway : Gateway :=
  { dgIdNetwork := fun i => if i = 5 ∨ i = 10 ∨ i = 20 ∨ i = 30 then some i else none
    net := fun p =>
      if p = 5 then ⟨0x0F, true, 2, 3⟩
      else if p = 30 then ⟨DT_VOICE_FR_MODE, false, 2, 3⟩
      else ⟨0x0F, false, 2, 3⟩
    defs := sampleDefs }

/-- A frame of 155 bytes tagged `YSFD` whose FICH decodes to the data type
`dt` and the DG-ID `dgId`. -/
def sampleFrame (dt dgId : Nat) : ReadResult :=
  { len := 155, buffer := { tag := YSFD, fich := some ⟨1, dt, 0, 0, dgId⟩, payload := [] } }

/-- The result of a `read` that found no datagram. -/
def noFrame : ReadResult :=
  { len := 0, buffer := { tag := [], fich := none, payload := [] } }

/-- The inputs of the network promotion of the scenarios: nothing from the
repeater, a `YSFD` frame with DG-ID 0 on slot 5, 7 ms on the stop watch. -/
def promotionInput : Input :=
  { rpt := noFrame, net := fun i => if i = 5 then sampleFrame 0 0 else noFrame, ms := 7 }

/-- The condition on the routing state that the loop maintains: the current
DG-ID is an index of the table, and it is 0 or the index of a bound slot. -/
def currentBound {τ : Type} (g : Gateway) (s : State τ) : Prop :=
  s.currentDGId < 100 ∧ (s.currentDGId = 0 ∨ ∃ p, g.dgIdNetwork s.currentDGId = some p)

/-- The `read` calls that the backend loop makes on the non-NULL entries of a
range of slots, in the order of the loop. -/
def readCalls (g : Gateway) (lo : Nat) : Nat → List Action
  | 0 => []
  | n + 1 =>
    (match g.dgIdNetwork lo with
      | some p => [Action.read p lo]
      | none => []) ++ readCalls g (lo + 1) n

/-- The calls that are a `write` on a backend. -/
def Action.isWrite : Action → Bool
  | Action.write _ _ _ => true
  | _ => false

/-- The backend reads of an iteration in which the slots 10, 20 and 30 each
deliver a `YSFD` frame with a valid FICH and the other slots deliver nothing. -/
def threeFrames : Nat → ReadResult :=
  fun i => if i = 10 ∨ i = 20 ∨ i = 30 then sampleFrame 0 0 else noFrame

/-- The three facts about `CTimer` that relate the timer to the routing state:
a timer just constructed is not running, a stopped timer is not running, and
a tick of the clock does not start a timer. -/
def TimerOps.Lawful {τ : Type} (T : TimerOps τ) : Prop :=
  (∀ n, T.isRunning (T.ctor n) = false) ∧
  (∀ t, T.isRunning (T.stop t) = false) ∧
  (∀ t ms, T.isRunning (T.clock t ms) = true → T.isRunning t = true)

/-- The relation between the timer and the routing state: a running timer
goes with a current DG-ID other than 0. -/
def runningImpliesActive {τ : Type} (T : TimerOps τ) (s : State τ) : Prop :=
  T.isRunning s.inactivityTimer = true → s.currentDGId ≠ 0

/-- An outcome in which the table was indexed below 100 only: the current
DG-ID it leaves is below 100 and it did not stop on an index outside the
table. -/
def indexedInTable {τ : Type} (o : Out τ) : Prop :=
  o.state.currentDGId < 100 ∧ ∀ k, o.fault ≠ some (Fault.outOfBounds k)

/-- A slot table with a shared backend: the slots 40, 41 and 42 all point to
the IMRS object, named 0, and slot 10 points to an object of its own, named
1. -/
def imrsGateway : Gateway :=
  { dgIdNetwork := fun i =>
      if i = 40 ∨ i = 41 ∨ i = 42 then some 0 else if i = 10 then some 1 else none
    net := fun p => if p = 0 then ⟨0x0F, true, 2, 3⟩ else ⟨0x0F, false, 2, 3⟩
    defs := sampleDefs }

/-- The slots of a range that point to the object `p`. -/
def slotsOf (g : Gateway) (p : Nat) (lo n : Nat) : List Nat :=
  (List.range' lo n).filter (fun i => decide (g.dgIdNetwork i = some p))

/-! ## The command line (lines 61-86) -/

/-- What `main` writes: the version line on stdout or the usage line on
stderr. -/
inductive Message where
  | version
  | usage
deriving DecidableEq

/-- What `main` does for an argument list: the exit status it returns, what
it writes, and the configuration file with which it constructs and runs the
gateway, `none` when it returns without constructing it. -/
structure MainResult where
  status : Int
  output : List Message
  gateway : Option String
deriving DecidableEq

/-- The test `arg.substr(0, 1) == "-"` of line 70. -/
def startsWithDash (arg : String) : Bool := arg.data.take 1 == ['-']

/-- Lines 65-76: the loop over `argv[currentArg]`, and lines 79-85 once the
loop is over; `gatewayRun` is what `gateway->run()` returns for the gateway
constructed with the given file. -/
def mainArgs (gatewayRun : String → Int) (iniFile : String) : List String → MainResult
  | [] => { status := gatewayRun iniFile, output := [], gateway := some iniFile }
  | arg :: rest =>
    if arg = "-v" ∨ arg = "--version" then
      { status := 0, output := [Message.version], gateway := none }
    else if startsWithDash arg then
      { status := 1, output := [Message.usage], gateway := none }
    else
      mainArgs gatewayRun arg rest

/-- Lines 61-86: `main(argc, argv)`, with `argv[0]` at the head of the list;
`DEFAULT_INI_FILE` is the file used when no argument names one. -/
def main (gatewayRun : String → Int) (DEFAULT_INI_FILE : String) (argv : List String) :
    MainResult :=
  mainArgs gatewayRun DEFAULT_INI_FILE (argv.drop 1)

/-! ## The directory build (lines 206-352) -/

/-- The fields of a `DGIdData` record that decide the binding of its slot. -/
structure DGIdData where
  m_dgId : Nat
  m_type : String
  m_static : Bool
  m_rfHangTime : Nat
  m_netHangTime : Nat
deriving DecidableEq

/-- One pass of the loop of line 220: the record, and what the collaborators
return while it is processed: `lookupOk` tells that
`reflectors->findByName(name)` found the reflector (type YSF) or that
`CUDPSocket::lookup` resolved the address (Parrot and the YSF2x bridges);
`openOk` is what `dgIdNetwork[dgid]->open()` returns at line 341. -/
structure BuildStep where
  data : DGIdData
  lookupOk : Bool
  openOk : Bool
deriving DecidableEq

/-- The state of the directory build: the slot table, the attributes of the
objects, the identity that the next `new` gives, the calls made so far, and
the fault that stopped the build, if any. -/
structure Directory where
  dgIdNetwork : Nat → Option Nat
  net : Nat → CDGIdNetwork
  next : Nat
  calls : List Action
  fault : Option Fault

/-- The mask `DT_VD_MODE1 | DT_VD_MODE2 | DT_VOICE_FR_MODE | DT_DATA_FR_MODE`. -/
def allModes : Nat := DT_VD_MODE1 ||| DT_VD_MODE2 ||| DT_VOICE_FR_MODE ||| DT_DATA_FR_MODE

/-- The mask `DT_VD_MODE1 | DT_VD_MODE2`. -/
def vdModes : Nat := DT_VD_MODE1 ||| DT_VD_MODE2

/-- The assignment `dgIdNetwork[dgid] = new ...` followed by the four
assignments to `m_modes`, `m_static`, `m_rfHangTime` and `m_netHangTime`. -/
def bindNew (d : Directory) (e : DGIdData) (m_modes : Nat) : Directory :=
  { d with
    dgIdNetwork := fun i => if i = e.m_dgId then some d.next else d.dgIdNetwork i
    net := fun p =>
      if p = d.next then ⟨m_modes, e.m_static, e.m_rfHangTime, e.m_netHangTime⟩ else d.net p
    next := d.next + 1 }

/-- Lines 274-280: `imrs->addDGId(...)`, the assignment `dgIdNetwork[dgid] =
imrs` and the four assignments to the attributes of the shared object. -/
def bindIMRS (d : Directory) (e : DGIdData) (p : Nat) : Directory :=
  { d with
    dgIdNetwork := fun i => if i = e.m_dgId then some p else d.dgIdNetwork i
    net := fun q =>
      if q = p then ⟨allModes, true, e.m_rfHangTime, e.m_netHangTime⟩ else d.net q
    calls := d.calls ++ [Action.addDGId p e.m_dgId] }

/-- Lines 228-338: the chain of tests on the type of the record; `imrs` is
the shared IMRS object, `none` when its `open` failed (lines 206-211). -/
def bindEntry (imrs : Option Nat) (d : Directory) (b : BuildStep) : Directory :=
  if b.data.m_type = "FCS" then bindNew d b.data allModes
  else if b.data.m_type = "YSF" then
    if b.lookupOk then bindNew d b.data allModes else d
  else if b.data.m_type = "IMRS" then
    match imrs with
    | some p => bindIMRS d b.data p
    | none => d
  else if b.data.m_type = "Parrot" then
    if b.lookupOk then bindNew d b.data allModes else d
  else if b.data.m_type = "YSF2DMR" then
    if b.lookupOk then bindNew d b.data vdModes else d
  else if b.data.m_type = "YSF2NXDN" then
    if b.lookupOk then bindNew d b.data vdModes else d
  else if b.data.m_type = "YSF2P25" then
    if b.lookupOk then bindNew d b.data DT_VOICE_FR_MODE else d
  else d

/-- Lines 340-351: `open()` on a non-NULL entry that is not the shared IMRS
object, the entry set to NULL when `open()` fails, three `link()` calls when
the entry is still there and the object is static. -/
def openAndLink (imrs : Option Nat) (d : Directory) (b : BuildStep) : Directory :=
  match d.dgIdNetwork b.data.m_dgId with
  | some p =>
    if some p ≠ imrs then
      if b.openOk then
        { d with calls := d.calls ++ [Action.netOpen p] ++
            (if (d.net p).m_static then [Action.link p, Action.link p, Action.link p]
             else []) }
      else
        { d with
          dgIdNetwork := fun i => if i = b.data.m_dgId then none else d.dgIdNetwork i
          calls := d.calls ++ [Action.netOpen p] }
    else d
  | none => d

/-- Lines 221-351: one pass of the loop of line 220, for a record whose
DG-ID is an index of the table. -/
def buildStep (imrs : Option Nat) (d : Directory) (b : BuildStep) : Directory :=
  openAndLink imrs (bindEntry imrs d b) b

/-- The calls of a pass that come before its first access to
`dgIdNetwork[dgid]`: `imrs->addDGId(...)` of line 274, for a record of type
IMRS when `imrs` is not NULL. -/
def callsBeforeStore (imrs : Option Nat) (b : BuildStep) : List Action :=
  if b.data.m_type = "IMRS" then
    match imrs with
    | some p => [Action.addDGId p b.data.m_dgId]
    | none => []
  else []

/-- Lines 220-352: the loop over the records.  A record whose DG-ID is 100
or more makes the pass index the table outside its 100 entries, which stops
the build after the calls that come before that access. -/
def buildFrom (imrs : Option Nat) : Directory → List BuildStep → Directory
  | d, [] => d
  | d, b :: rest =>
    if b.data.m_dgId < 100 then buildFrom imrs (buildStep imrs d b) rest
    else
      { d with
        calls := d.calls ++ callsBeforeStore imrs b
        fault := some (Fault.outOfBounds b.data.m_dgId) }

/-- Lines 206-217: the state before the loop: every entry NULL; the IMRS
object, created first, has the identity 0, so the next object gets 1;
`net0` gives the attributes that the constructors leave in the objects. -/
def emptyDirectory (net0 : Nat → CDGIdNetwork) : Directory :=
  { dgIdNetwork := fun _ => none, net := net0, next := 1, calls := [], fault := none }

/-- Lines 206-211: the pointer `imrs` after `imrs->open()`. -/
def imrsPointer (imrsOpened : Bool) : Option Nat := if imrsOpened then some 0 else none

/-- Lines 206-352: the directory build for a configuration list. -/
def build (imrsOpened : Bool) (net0 : Nat → CDGIdNetwork) (config : List BuildStep) :
    Directory :=
  buildFrom (imrsPointer imrsOpened) (emptyDirectory net0) config

/-- A configuration for the concrete evaluations: slot 5 a static YSF
reflector, slot 10 a non-static YSF reflector, slot 30 a non-static YSF2P25
bridge, slots 40 and 41 of type IMRS with the hang times 7, 8 and 9, 11, and
slot 50 a static FCS reflector whose `open` fails. -/
def sampleConfig : List BuildStep :=
  [⟨⟨5, "YSF", true, 2, 3⟩, true, true⟩,
   ⟨⟨10, "YSF", false, 2, 3⟩, true, true⟩,
   ⟨⟨30, "YSF2P25", false, 2, 3⟩, true, true⟩,
   ⟨⟨40, "IMRS", false, 7, 8⟩, true, true⟩,
   ⟨⟨41, "IMRS", false, 9, 11⟩, true, true⟩,
   ⟨⟨50, "FCS", true, 2, 3⟩, true, false⟩]

/-- The attributes of the objects before the build, for the concrete
evaluations. -/
def sampleNet0 : Nat → CDGIdNetwork := fun _ => ⟨0, false, 0, 0⟩

/-- The last record of type IMRS of a list of passes, if there is one. -/
def lastIMRS (steps : List BuildStep) : Option DGIdData :=
  ((steps.filter (fun b => decide (b.data.m_type = "IMRS"))).map BuildStep.data).getLast?

/-- The allowed-modes mask that goes with a backend type: all four bits for
YSF, FCS, IMRS and Parrot, the two VD bits for YSF2DMR and YSF2NXDN, the
voice-FR bit for YSF2P25; no mask for any other type. -/
def modesOfType (type : String) : Option Nat :=
  if type = "YSF" ∨ type = "FCS" ∨ type = "IMRS" ∨ type = "Parrot" then some 0x0F
  else if type = "YSF2DMR" ∨ type = "YSF2NXDN" then some 0x03
  else if type = "YSF2P25" then some 0x04
  else none

/-- The objects of a directory are those created so far: every pointer of the
table and the IMRS pointer are below `next`, and no object other than the
shared IMRS object is pointed to by two slots. -/
def Directory.Fresh (imrs : Option Nat) (d : Directory) : Prop :=
  (∀ i p, d.dgIdNetwork i = some p → p < d.next) ∧
  (∀ p, imrs = some p → p < d.next) ∧
  (∀ i j p, d.dgIdNetwork i = some p → d.dgIdNetwork j = some p → some p ≠ imrs → i = j)

/-- The link calls of a directory build so far: every link call is on a
static object, other than the IMRS object, that a slot points to, and every
such object has had exactly three link calls. -/
def Directory.Linked (imrs : Option Nat) (d : Directory) : Prop :=
  (∀ p, Action.link p ∈ d.calls →
    some p ≠ imrs ∧ (d.net p).m_static = true ∧ ∃ i, d.dgIdNetwork i = some p) ∧
  (∀ i p, d.dgIdNetwork i = some p → some p ≠ imrs → (d.net p).m_static = true →
    d.calls.count (Action.link p) = 3)

/-- The records of a configuration list have pairwise distinct DG-IDs, all of
them indices of the table. -/
def keyedByDGId (config : List BuildStep) : Prop :=
  config.Pairwise (fun a b => a.data.m_dgId ≠ b.data.m_dgId) ∧
  ∀ b ∈ config, b.data.m_dgId < 100

/-! ## Calls of the pieces of an iteration -/

theorem Out.mem_andThen_calls {τ : Type} (o : Out τ) (f : State τ → Out τ) (a : Action)
    (h : a ∈ (o.andThen f).calls) : a ∈ o.calls ∨ a ∈ (f o.state).calls := by
  unfold Out.andThen at h
  split at h
  · exact Or.inl h
  · simpa using h

theorem mem_netIngressFrom_calls {τ : Type} (T : TimerOps τ) (g : Gateway)
    (read : Nat → ReadResult) (a : Action) :
    ∀ (n lo : Nat) (s : State τ), a ∈ (netIngressFrom T g read s lo n).calls →
      ∃ s1 i, lo ≤ i ∧ i < lo + n ∧ a ∈ (netIngressSlot T g read s1 i).calls := by
  intro n
  induction n with
  | zero => intro lo s h; simp [netIngressFrom, Out.ok] at h
  | succ n ih =>
    intro lo s h
    rw [netIngressFrom] at h
    rcases Out.mem_andThen_calls _ _ _ h with h1 | h1
    · exact ⟨s, lo, le_refl _, by omega, h1⟩
    · obtain ⟨s1, i, hlo, hhi, hm⟩ := ih _ _ h1
      exact ⟨s1, i, by omega, by omega, hm⟩

/-- Every call of an iteration is made by one of its five pieces. -/
theorem mem_iteration_calls {τ : Type} (T : TimerOps τ) (g : Gateway) (s : State τ)
    (inp : Input) (a : Action) (h : a ∈ (iteration T g s inp).calls) :
    a = Action.rptRead ∨
    a ∈ (rptIngress T g s inp.rpt).calls ∨
    (∃ s1 i, 1 ≤ i ∧ i < 100 ∧ a ∈ (netIngressSlot T g inp.net s1 i).calls) ∨
    (∃ s1 : State τ, a ∈ (tick g s1 inp.ms).calls) ∨
    (∃ s1, a ∈ (inactivity T g s1 inp.ms).calls) := by
  unfold iteration at h
  rcases Out.mem_andThen_calls _ _ _ h with h1 | h1
  · rcases Out.mem_andThen_calls _ _ _ h1 with h2 | h2
    · unfold ingress at h2
      rcases Out.mem_andThen_calls _ _ _ h2 with h3 | h3
      · rcases Out.mem_andThen_calls _ _ _ h3 with h4 | h4
        · left; simpa [Out.ok] using h4
        · right; left; simpa [Out.ok] using h4
      · right; right; left
        obtain ⟨s1, i, hlo, hhi, hm⟩ := mem_netIngressFrom_calls T g inp.net a _ _ _ h3
        exact ⟨s1, i, hlo, by omega, hm⟩
    · right; right; right; left; exact ⟨_, h2⟩
  · right; right; right; right; exact ⟨_, h1⟩

/-- Every call of a run is made by one of its iterations. -/
theorem mem_run_calls {τ : Type} (T : TimerOps τ) (g : Gateway) (a : Action) :
    ∀ (inputs : List Input) (s : State τ), a ∈ (run T g s inputs).calls →
      ∃ s1 inp, inp ∈ inputs ∧ a ∈ (iteration T g s1 inp).calls := by
  intro inputs
  induction inputs with
  | nil => intro s h; simp [run, Out.ok] at h
  | cons inp rest ih =>
    intro s h
    rw [run] at h
    rcases Out.mem_andThen_calls _ _ _ h with h1 | h1
    · exact ⟨s, inp, by simp, h1⟩
    · obtain ⟨s1, inp1, hin, hm⟩ := ih _ h1
      exact ⟨s1, inp1, by simp [hin], hm⟩

theorem mem_unlinkCalls (g : Gateway) (entry : Option Nat) (a : Action)
    (h : a ∈ unlinkCalls g entry) :
    ∃ p, entry = some p ∧ (g.net p).m_static = false ∧ a = Action.unlink p := by
  unfold unlinkCalls at h
  split at h
  · rename_i p
    by_cases hs : (g.net p).m_static = true
    · simp [hs] at h
    · simp [hs] at h
      exact ⟨p, rfl, by simpa using hs, h⟩
  · simp at h

theorem mem_linkCalls (g : Gateway) (entry : Option Nat) (a : Action)
    (h : a ∈ linkCalls g entry) :
    ∃ p, entry = some p ∧ (g.net p).m_static = false ∧ a = Action.link p := by
  unfold linkCalls at h
  split at h
  · rename_i p
    by_cases hs : (g.net p).m_static = true
    · simp [hs] at h
    · simp [hs] at h
      exact ⟨p, rfl, by simpa using hs, h⟩
  · simp at h

/-- The switch step makes link and unlink calls only, on non-static objects. -/
theorem mem_switchDGId_calls {τ : Type} (g : Gateway) (s : State τ) (dgId : Nat) (a : Action)
    (h : a ∈ (switchDGId g s dgId).calls) :
    ∃ p, (g.net p).m_static = false ∧ (a = Action.unlink p ∨ a = Action.link p) := by
  unfold switchDGId at h
  split at h
  · split at h
    · split at h
      · split at h
        · simp only [Out.ok, List.mem_append] at h
          rcases h with h | h
          · obtain ⟨p, _, hs, ha⟩ := mem_unlinkCalls g _ a h
            exact ⟨p, hs, Or.inl ha⟩
          · obtain ⟨p, _, hs, ha⟩ := mem_linkCalls g _ a h
            exact ⟨p, hs, Or.inr ha⟩
        · obtain ⟨p, _, hs, ha⟩ := mem_unlinkCalls g _ a h
          exact ⟨p, hs, Or.inl ha⟩
      · obtain ⟨p, _, hs, ha⟩ := mem_unlinkCalls g _ a h
        exact ⟨p, hs, Or.inl ha⟩
    · simp at h
  · simp [Out.ok] at h

/-- The forwarding step makes at most one backend write, of the buffer
re-encoded with DG-ID 0, and the two calls that arm the timer. -/
theorem mem_forwardRpt_calls {τ : Type} (T : TimerOps τ) (g : Gateway) (s : State τ)
    (fich : CYSFFICH) (buffer : Buffer) (a : Action)
    (h : a ∈ (forwardRpt T g s fich buffer).calls) :
    (∃ p, g.dgIdNetwork s.currentDGId = some p ∧
      a = Action.write p s.currentDGId (encode (fich.setDGId 0) buffer)) ∨
    (∃ n, a = Action.timerSetTimeout n) ∨ a = Action.timerStart := by
  unfold forwardRpt at h
  split at h
  · split at h
    · split at h
      · rename_i p hp
        simp only [Out.ok, List.mem_append] at h
        rcases h with h | h
        · split at h
          · simp at h; exact Or.inl ⟨p, hp, h⟩
          · simp at h
        · simp at h
          rcases h with h | h
          · exact Or.inr (Or.inl ⟨_, h⟩)
          · exact Or.inr (Or.inr h)
      · simp [Out.ok] at h
    · simp at h
  · simp [Out.ok] at h

/-- The calls of the repeater ingress: link and unlink calls on non-static
objects, a backend write of the frame re-encoded with DG-ID 0, and the calls
that arm the timer. -/
theorem mem_rptIngress_calls {τ : Type} (T : TimerOps τ) (g : Gateway) (s : State τ)
    (rd : ReadResult) (a : Action) (h : a ∈ (rptIngress T g s rd).calls) :
    (∃ p, (g.net p).m_static = false ∧ (a = Action.unlink p ∨ a = Action.link p)) ∨
    (∃ p c fich, decode rd.buffer = some fich ∧ g.dgIdNetwork c = some p ∧
      a = Action.write p c (encode (fich.setDGId 0) rd.buffer)) ∨
    (∃ n, a = Action.timerSetTimeout n) ∨ a = Action.timerStart := by
  unfold rptIngress at h
  split at h
  · split at h
    · split at h
      · rename_i fich hf
        rcases Out.mem_andThen_calls _ _ _ h with h1 | h1
        · exact Or.inl (mem_switchDGId_calls g s _ a h1)
        · rcases mem_forwardRpt_calls T g _ fich rd.buffer a h1 with ⟨p, hp, ha⟩ | h2
          · exact Or.inr (Or.inl ⟨p, _, fich, hf, hp, ha⟩)
          · exact Or.inr (Or.inr h2)
      · simp [Out.ok] at h
    · simp [Out.ok] at h
  · simp [Out.ok] at h

/-- The calls of the backend loop body for the index `i`: the read, a
repeater write of the frame re-encoded with DG-ID `i`, and the calls that arm
the timer. -/
theorem mem_netIngressSlot_calls {τ : Type} (T : TimerOps τ) (g : Gateway)
    (read : Nat → ReadResult) (s : State τ) (i : Nat) (a : Action)
    (h : a ∈ (netIngressSlot T g read s i).calls) :
    (∃ p, g.dgIdNetwork i = some p ∧ a = Action.read p i) ∨
    (∃ p fich, g.dgIdNetwork i = some p ∧ 0 < (read i).len ∧
      decode (read i).buffer = some fich ∧
      a = Action.rptWrite (encode (fich.setDGId i) (read i).buffer)) ∨
    (∃ n, a = Action.timerSetTimeout n) ∨ a = Action.timerStart := by
  unfold netIngressSlot at h
  split at h
  · simp [Out.ok] at h
  · rename_i p hp
    split at h
    · rename_i hc
      split at h
      · split at h
        · rename_i fich hf
          simp [Out.ok] at h
          rcases h with h | h | h | h
          · exact Or.inl ⟨p, hp, h⟩
          · exact Or.inr (Or.inl ⟨p, fich, hp, hc.1, hf, h⟩)
          · exact Or.inr (Or.inr (Or.inl ⟨_, h⟩))
          · exact Or.inr (Or.inr (Or.inr h))
        · simp [Out.ok] at h; exact Or.inl ⟨p, hp, h⟩
      · simp [Out.ok] at h; exact Or.inl ⟨p, hp, h⟩
    · simp [Out.ok] at h; exact Or.inl ⟨p, hp, h⟩

theorem mem_clockCalls (g : Gateway) (ms : Nat) (a : Action) :
    ∀ (n lo : Nat), a ∈ clockCalls g ms lo n → ∃ p, a = Action.clock p ms := by
  intro n
  induction n with
  | zero => intro lo h; simp [clockCalls] at h
  | succ n ih =>
    intro lo h
    rw [clockCalls] at h
    rcases List.mem_append.1 h with h1 | h1
    · split at h1
      · simp at h1; exact ⟨_, h1⟩
      · simp at h1
    · exact ih _ h1

/-- The tick makes clock calls only. -/
theorem mem_tick_calls {τ : Type} (g : Gateway) (s : State τ) (ms : Nat) (a : Action)
    (h : a ∈ (tick g s ms).calls) : a = Action.rptClock ms ∨ ∃ p, a = Action.clock p ms := by
  simp only [tick, Out.ok, List.mem_cons] at h
  rcases h with h | h
  · exact Or.inl h
  · exact Or.inr (mem_clockCalls g ms a _ _ h)

/-- The timer tick and the expiry step make timer calls, and unlink calls on
non-static objects. -/
theorem mem_inactivity_calls {τ : Type} (T : TimerOps τ) (g : Gateway) (s : State τ)
    (ms : Nat) (a : Action) (h : a ∈ (inactivity T g s ms).calls) :
    a = Action.timerClock ms ∨ a = Action.timerStop ∨
    ∃ p, (g.net p).m_static = false ∧ a = Action.unlink p := by
  unfold inactivity at h
  rcases Out.mem_andThen_calls _ _ _ h with h1 | h1
  · simp [timerTick, Out.ok] at h1; exact Or.inl h1
  · unfold expiry at h1
    split at h1
    · split at h1
      · simp only [Out.ok, List.mem_append] at h1
        rcases h1 with h2 | h2
        · obtain ⟨p, _, hs, ha⟩ := mem_unlinkCalls g _ a h2
          exact Or.inr (Or.inr ⟨p, hs, ha⟩)
        · simp at h2; exact Or.inr (Or.inl h2)
      · simp at h1
    · simp [Out.ok] at h1

/-! ## C1, C2: the FICH rewrite rule -/

/-- C1: every backend write issued in an iteration of the routing loop, from
any loop state and for any frame read from the repeater, is made on the
repeater buffer after its FICH was re-encoded with the DG-ID set to 0: the
FICH carried by the written buffer has DG-ID 0, whatever DG-ID the incoming
frame carried. -/
theorem C1_backend_write_has_dgid_zero {τ : Type} (T : TimerOps τ) (g : Gateway)
    (s : State τ) (inp : Input) (p c : Nat) (buf : Buffer)
    (h : Action.write p c buf ∈ (iteration T g s inp).calls) :
    ∃ fich, decode inp.rpt.buffer = some fich ∧
      buf = encode (fich.setDGId 0) inp.rpt.buffer ∧ buf.fichDGId = some 0 := by
  rcases mem_iteration_calls T g s inp _ h with h1 | h1 | ⟨s1, i, _, _, h1⟩ | ⟨s1, h1⟩ | ⟨s1, h1⟩
  · cases h1
  · rcases mem_rptIngress_calls T g s inp.rpt _ h1 with
      ⟨q, _, h2 | h2⟩ | ⟨q, d, fich, hf, _, h2⟩ | ⟨n, h2⟩ | h2
    · cases h2
    · cases h2
    · injection h2 with _ _ hb
      exact ⟨fich, hf, hb, by rw [hb]; rfl⟩
    · cases h2
    · cases h2
  · rcases mem_netIngressSlot_calls T g inp.net s1 i _ h1 with
      ⟨q, _, h2⟩ | ⟨q, fich, _, _, _, h2⟩ | ⟨n, h2⟩ | h2 <;> cases h2
  · rcases mem_tick_calls g s1 inp.ms _ h1 with h2 | ⟨q, h2⟩ <;> cases h2
  · rcases mem_inactivity_calls T g s1 inp.ms _ h1 with h2 | h2 | ⟨q, _, h2⟩ <;> cases h2

/-- C1 at the cold switch of the scenarios: from startup, a repeater frame
with DG-ID 10 is written to the backend of slot 10 with DG-ID 0. -/
theorem C1_backend_write_has_dgid_zero_witness :
    Action.write 10 10 (encode ((⟨1, 0, 0, 0, 10⟩ : CYSFFICH).setDGId 0)
        (sampleFrame 0 10).buffer) ∈
      (iteration cTimer sampleGateway (startup cTimer)
        ⟨sampleFrame 0 10, fun _ => noFrame, 1⟩).calls ∧
    ∃ fich, decode (sampleFrame 0 10).buffer = some fich ∧
      encode ((⟨1, 0, 0, 0, 10⟩ : CYSFFICH).setDGId 0) (sampleFrame 0 10).buffer =
        encode (fich.setDGId 0) (sampleFrame 0 10).buffer ∧
      (encode ((⟨1, 0, 0, 0, 10⟩ : CYSFFICH).setDGId 0) (sampleFrame 0 10).buffer).fichDGId
        = some 0 :=
  ⟨by decide,
   C1_backend_write_has_dgid_zero cTimer sampleGateway (startup cTimer)
    ⟨sampleFrame 0 10, fun _ => noFrame, 1⟩ 10 10
    (encode ((⟨1, 0, 0, 0, 10⟩ : CYSFFICH).setDGId 0) (sampleFrame 0 10).buffer) (by decide)⟩

/-- C2: every repeater write issued in an iteration of the routing loop is
issued by the body of the backend loop for some slot `i` in 1..99, on the
buffer read from slot `i` after its FICH was re-encoded with the DG-ID set to
`i`: the FICH carried by the written buffer has DG-ID `i`, whatever DG-ID the
incoming frame carried. -/
theorem C2_repeater_write_has_dgid_of_slot {τ : Type} (T : TimerOps τ) (g : Gateway)
    (s : State τ) (inp : Input) (buf : Buffer)
    (h : Action.rptWrite buf ∈ (iteration T g s inp).calls) :
    ∃ i s1 p fich, 1 ≤ i ∧ i < 100 ∧ g.dgIdNetwork i = some p ∧
      Action.rptWrite buf ∈ (netIngressSlot T g inp.net s1 i).calls ∧
      0 < (inp.net i).len ∧ decode (inp.net i).buffer = some fich ∧
      buf = encode (fich.setDGId i) (inp.net i).buffer ∧ buf.fichDGId = some i := by
  rcases mem_iteration_calls T g s inp _ h with h1 | h1 | ⟨s1, i, hlo, hhi, h1⟩ | ⟨s1, h1⟩ | ⟨s1, h1⟩
  · cases h1
  · rcases mem_rptIngress_calls T g s inp.rpt _ h1 with
      ⟨q, _, h2 | h2⟩ | ⟨q, d, fich, _, _, h2⟩ | ⟨n, h2⟩ | h2 <;> cases h2
  · rcases mem_netIngressSlot_calls T g inp.net s1 i _ h1 with
      ⟨q, _, h2⟩ | ⟨q, fich, hq, hl, hf, h2⟩ | ⟨n, h2⟩ | h2
    · cases h2
    · injection h2 with hb
      exact ⟨i, s1, q, fich, hlo, hhi, hq, h1, hl, hf, hb, by rw [hb]; rfl⟩
    · cases h2
    · cases h2
  · rcases mem_tick_calls g s1 inp.ms _ h1 with h2 | ⟨q, h2⟩ <;> cases h2
  · rcases mem_inactivity_calls T g s1 inp.ms _ h1 with h2 | h2 | ⟨q, _, h2⟩ <;> cases h2

/-- C2 at the network promotion of the scenarios: a frame read from slot 5 is
written to the repeater with DG-ID 5. -/
theorem C2_repeater_write_has_dgid_of_slot_witness :
    Action.rptWrite (encode ((⟨1, 0, 0, 0, 0⟩ : CYSFFICH).setDGId 5) (sampleFrame 0 0).buffer) ∈
      (iteration cTimer sampleGateway (startup cTimer) promotionInput).calls ∧
    ∃ i s1 p fich, 1 ≤ i ∧ i < 100 ∧ sampleGateway.dgIdNetwork i = some p ∧
      Action.rptWrite (encode ((⟨1, 0, 0, 0, 0⟩ : CYSFFICH).setDGId 5)
          (sampleFrame 0 0).buffer) ∈
        (netIngressSlot cTimer sampleGateway promotionInput.net s1 i).calls ∧
      0 < (promotionInput.net i).len ∧ decode (promotionInput.net i).buffer = some fich ∧
      encode ((⟨1, 0, 0, 0, 0⟩ : CYSFFICH).setDGId 5) (sampleFrame 0 0).buffer =
        encode (fich.setDGId i) (promotionInput.net i).buffer ∧
      (encode ((⟨1, 0, 0, 0, 0⟩ : CYSFFICH).setDGId 5) (sampleFrame 0 0).buffer).fichDGId
        = some i :=
  ⟨by decide,
   C2_repeater_write_has_dgid_of_slot cTimer sampleGateway (startup cTimer) promotionInput
    (encode ((⟨1, 0, 0, 0, 0⟩ : CYSFFICH).setDGId 5) (sampleFrame 0 0).buffer) (by decide)⟩

/-! ## C3: the calls of an RF-driven switch -/

/-- C3: for a loop state with current DG-ID `c` (an index of the table) and a
repeater frame tagged YSFD with a valid FICH whose DG-ID `d` is not 0, not
`c`, and names a bound slot, the calls made while processing the frame are,
in this order: three unlink calls on the object of slot `c` exactly when that
slot is bound and non-static, three link calls on the object of slot `d`
exactly when it is non-static, at most one write to the backend of slot `d`
(present exactly when the mode filter lets the frame through), and the two
calls that arm the timer; the current DG-ID becomes `d`. -/
theorem C3_rf_switch_calls {τ : Type} (T : TimerOps τ) (g : Gateway) (s : State τ)
    (rd : ReadResult) (fich : CYSFFICH) (q : Nat)
    (hlen : 0 < rd.len) (htag : rd.buffer.isYSFD = true) (hf : decode rd.buffer = some fich)
    (hc : s.currentDGId < 100)
    (hd0 : fich.getDGId ≠ 0) (hdc : fich.getDGId ≠ s.currentDGId)
    (hd : fich.getDGId < 100) (hq : g.dgIdNetwork fich.getDGId = some q) :
    (rptIngress T g s rd).fault = none ∧
    (rptIngress T g s rd).state.currentDGId = fich.getDGId ∧
    (rptIngress T g s rd).calls =
      (match g.dgIdNetwork s.currentDGId with
        | some p => if (g.net p).m_static then [] else List.replicate 3 (Action.unlink p)
        | none => []) ++
      (if (g.net q).m_static then [] else List.replicate 3 (Action.link q)) ++
      (if modeAllowed g.defs fich.getDT (g.net q).m_modes then
        [Action.write q fich.getDGId (encode (fich.setDGId 0) rd.buffer)] else []) ++
      [Action.timerSetTimeout (g.net q).m_rfHangTime, Action.timerStart] := by
  have hsw : switchDGId g s fich.getDGId =
      Out.ok { s with currentDGId := fich.getDGId }
        (unlinkCalls g (g.dgIdNetwork s.currentDGId) ++ linkCalls g (some q)) := by
    simp [switchDGId, hd0, hdc, hc, hd, hq]
  have hun : unlinkCalls g (g.dgIdNetwork s.currentDGId) =
      (match g.dgIdNetwork s.currentDGId with
        | some p => if (g.net p).m_static then [] else List.replicate 3 (Action.unlink p)
        | none => []) := by
    unfold unlinkCalls
    cases g.dgIdNetwork s.currentDGId <;> simp [List.replicate]
  have hln : linkCalls g (some q) =
      (if (g.net q).m_static then [] else List.replicate 3 (Action.link q)) := by
    simp [linkCalls, List.replicate]
  simp only [rptIngress, hlen, htag, hf, hsw, gt_iff_lt, if_true]
  simp [Out.andThen, Out.ok, forwardRpt, hd0, hd, hq, hun, hln]

/-- C3 at the hot switch of the scenarios: current DG-ID 10, a repeater frame
with DG-ID 20: three unlinks on 10, three links on 20, a write on 20. -/
theorem C3_rf_switch_calls_witness :
    (rptIngress cTimer sampleGateway ⟨10, cTimer.ctor 1000⟩ (sampleFrame 0 20)).fault = none ∧
    (rptIngress cTimer sampleGateway ⟨10, cTimer.ctor 1000⟩ (sampleFrame 0 20)).state.currentDGId
      = 20 ∧
    (rptIngress cTimer sampleGateway ⟨10, cTimer.ctor 1000⟩ (sampleFrame 0 20)).calls =
      [Action.unlink 10, Action.unlink 10, Action.unlink 10,
       Action.link 20, Action.link 20, Action.link 20,
       Action.write 20 20 (encode ⟨1, 0, 0, 0, 0⟩ (sampleFrame 0 20).buffer),
       Action.timerSetTimeout 2, Action.timerStart] :=
  C3_rf_switch_calls cTimer sampleGateway ⟨10, cTimer.ctor 1000⟩ (sampleFrame 0 20)
    ⟨1, 0, 0, 0, 20⟩ 20 (by decide) (by decide) (by decide) (by decide) (by decide)
    (by decide) (by decide) (by decide)

/-! ## C4: the current DG-ID and the bound slots -/

theorem Out.andThen_preserves {τ : Type} (P : State τ → Prop) (o : Out τ)
    (f : State τ → Out τ) (ho : o.fault = none → P o.state)
    (hf : ∀ s, P s → (f s).fault = none → P (f s).state)
    (h : (o.andThen f).fault = none) : P (o.andThen f).state := by
  unfold Out.andThen at h ⊢
  split at h
  · rename_i x hx
    rw [hx] at h
    cases h
  · rename_i hx
    simp only [hx]
    exact hf _ (ho hx) h

theorem switchDGId_currentBound {τ : Type} (g : Gateway) (s : State τ) (dgId : Nat)
    (hs : currentBound g s) (h : (switchDGId g s dgId).fault = none) :
    currentBound g (switchDGId g s dgId).state := by
  unfold switchDGId at h ⊢
  split
  · rename_i hsw
    rw [if_pos hsw] at h
    split
    · rename_i hc
      rw [if_pos hc] at h
      split
      · rename_i hd
        rw [if_pos hd] at h
        split
        · rename_i p hp
          exact ⟨hd, Or.inr ⟨p, hp⟩⟩
        · rename_i hp
          simp [hp] at h
      · rename_i hd
        rw [if_neg hd] at h
        cases h
    · exact hs
  · exact hs

theorem forwardRpt_currentDGId {τ : Type} (T : TimerOps τ) (g : Gateway) (s : State τ)
    (fich : CYSFFICH) (buffer : Buffer) :
    (forwardRpt T g s fich buffer).state.currentDGId = s.currentDGId := by
  unfold forwardRpt
  split
  · split
    · split <;> rfl
    · rfl
  · rfl

theorem rptIngress_currentBound {τ : Type} (T : TimerOps τ) (g : Gateway) (s : State τ)
    (rd : ReadResult) (hs : currentBound g s) (h : (rptIngress T g s rd).fault = none) :
    currentBound g (rptIngress T g s rd).state := by
  unfold rptIngress at h ⊢
  split
  · rename_i h1
    rw [if_pos h1] at h
    split
    · rename_i h2
      rw [if_pos h2] at h
      split
      · rename_i fich hf
        simp only [hf] at h
        refine Out.andThen_preserves (currentBound g) _ _
          (switchDGId_currentBound g s _ hs) ?_ h
        intro s1 hs1 _
        unfold currentBound at hs1 ⊢
        rw [forwardRpt_currentDGId]
        exact hs1
      · exact hs
    · exact hs
  · exact hs

theorem netIngressSlot_fault {τ : Type} (T : TimerOps τ) (g : Gateway)
    (read : Nat → ReadResult) (s : State τ) (i : Nat) :
    (netIngressSlot T g read s i).fault = none := by
  unfold netIngressSlot
  split
  · rfl
  · split
    · split
      · split <;> rfl
      · rfl
    · rfl

theorem netIngressSlot_currentBound {τ : Type} (T : TimerOps τ) (g : Gateway)
    (read : Nat → ReadResult) (s : State τ) (i : Nat) (hi : i < 100)
    (hs : currentBound g s) : currentBound g (netIngressSlot T g read s i).state := by
  unfold netIngressSlot
  split
  · exact hs
  · rename_i p hp
    split
    · split
      · split
        · by_cases hc : s.currentDGId = 0
          · simp only [Out.ok, currentBound, hc, if_true]
            exact ⟨hi, Or.inr ⟨p, hp⟩⟩
          · have : (Out.ok (τ := τ)
                { currentDGId := if s.currentDGId = 0 then i else s.currentDGId,
                  inactivityTimer :=
                    T.start (T.setTimeout s.inactivityTimer (g.net p).m_netHangTime) }
                [Action.read p i,
                 Action.rptWrite (encode (CYSFFICH.setDGId ‹CYSFFICH› i) (read i).buffer),
                 Action.timerSetTimeout (g.net p).m_netHangTime,
                 Action.timerStart]).state.currentDGId = s.currentDGId := by
              simp [Out.ok, hc]
            exact ⟨by rw [this]; exact hs.1, by rw [this]; exact hs.2⟩
        · exact hs
      · exact hs
    · exact hs

theorem netIngressFrom_fault {τ : Type} (T : TimerOps τ) (g : Gateway)
    (read : Nat → ReadResult) :
    ∀ (n lo : Nat) (s : State τ), (netIngressFrom T g read s lo n).fault = none := by
  intro n
  induction n with
  | zero => intro lo s; rfl
  | succ n ih =>
    intro lo s
    rw [netIngressFrom]
    simp [Out.andThen, netIngressSlot_fault, ih]

theorem netIngressFrom_currentBound {τ : Type} (T : TimerOps τ) (g : Gateway)
    (read : Nat → ReadResult) :
    ∀ (n lo : Nat) (s : State τ), lo + n ≤ 100 → currentBound g s →
      currentBound g (netIngressFrom T g read s lo n).state := by
  intro n
  induction n with
  | zero => intro lo s _ hs; exact hs
  | succ n ih =>
    intro lo s hlo hs
    rw [netIngressFrom]
    refine Out.andThen_preserves (currentBound g) _ _
      (fun _ => netIngressSlot_currentBound T g read s lo (by omega) hs) ?_ ?_
    · intro s1 hs1 _
      exact ih (lo + 1) s1 (by omega) hs1
    · simp [Out.andThen, netIngressSlot_fault, netIngressFrom_fault]

theorem inactivity_currentBound {τ : Type} (T : TimerOps τ) (g : Gateway) (s : State τ)
    (ms : Nat) (hs : currentBound g s) : currentBound g (inactivity T g s ms).state := by
  have hs1 : currentBound g (timerTick T s ms).state := hs
  have he : ∀ s1 : State τ, currentBound g s1 → currentBound g (expiry T g s1).state := by
    intro s1 h1
    unfold expiry
    split
    · split
      · exact ⟨Nat.zero_lt_succ 99, Or.inl rfl⟩
      · exact h1
    · exact h1
  unfold inactivity
  simp only [Out.andThen, timerTick, Out.ok]
  exact he _ hs1

/-- An iteration that completes leaves the current DG-ID at 0 or at the index
of a bound slot, when it started so. -/
theorem iteration_currentBound {τ : Type} (T : TimerOps τ) (g : Gateway) (s : State τ)
    (inp : Input) (hs : currentBound g s) (h : (iteration T g s inp).fault = none) :
    currentBound g (iteration T g s inp).state := by
  unfold iteration at h ⊢
  refine Out.andThen_preserves (currentBound g) _ _ ?_
    (fun s4 h4 _ => inactivity_currentBound T g s4 inp.ms h4) h
  intro h1
  refine Out.andThen_preserves (currentBound g) _ _ ?_ (fun s3 h3 _ => h3) h1
  intro h2
  unfold ingress at h2 ⊢
  refine Out.andThen_preserves (currentBound g) _ _ ?_
    (fun s2 hs2 _ => netIngressFrom_currentBound T g inp.net 99 1 s2 (by decide) hs2) h2
  intro h3
  exact Out.andThen_preserves (currentBound g) _ _ (fun _ => hs)
    (fun s1 hs1 hf => rptIngress_currentBound T g s1 inp.rpt hs1 hf) h3

/-- A run from startup that completes ends with the current DG-ID at 0 or at
the index of a bound slot. -/
theorem run_currentBound {τ : Type} (T : TimerOps τ) (g : Gateway) :
    ∀ (inputs : List Input) (s : State τ), currentBound g s →
      (run T g s inputs).fault = none → currentBound g (run T g s inputs).state := by
  intro inputs
  induction inputs with
  | nil => intro s hs _; exact hs
  | cons inp rest ih =>
    intro s hs h
    rw [run] at h ⊢
    exact Out.andThen_preserves (currentBound g) _ _
      (iteration_currentBound T g s inp hs) (fun s1 hs1 hf => ih s1 hs1 hf) h

/-- C4, evaluation at the failing input: slot 7 has no binding and the
current DG-ID is 0; a repeater frame with FICH DG-ID 7 reaches line 391,
which calls `getDesc` through the NULL entry, so the iteration ends in a
fault instead of leaving the current DG-ID unchanged and going on. -/
theorem C4_unbound_target_is_dereferenced :
    sampleGateway.dgIdNetwork 7 = none ∧
    switchDGId sampleGateway (startup cTimer) 7 =
      ⟨startup cTimer, [], some (Fault.nullDeref 7)⟩ ∧
    (iteration cTimer sampleGateway (startup cTimer)
      ⟨sampleFrame 0 7, fun _ => noFrame, 1⟩).fault = some (Fault.nullDeref 7) := by
  refine ⟨by decide, rfl, by decide⟩

/-! ## C5: mode-rejected repeater frames -/

/-- C5, counterexample: slot 30 allows the voice-FR mode only and is the
current slot; a repeater frame with data type VD mode 2 is rejected by the
mode filter and no backend write is made, yet lines 412-413 run: the timeout
of the inactivity timer is set to the RF hang time of slot 30 and the timer
is started, so the timer does not stay as it was. -/
theorem C5_mode_rejected_frame_arms_timer_counterexample :
    modeAllowed sampleGateway.defs (CYSFFICH.getDT ⟨1, 2, 0, 0, 30⟩)
      (sampleGateway.net 30).m_modes = false ∧
    (rptIngress cTimer sampleGateway ⟨30, cTimer.ctor 1000⟩ (sampleFrame 2 30)).calls =
      [Action.timerSetTimeout 2, Action.timerStart] ∧
    (rptIngress cTimer sampleGateway ⟨30, cTimer.ctor 1000⟩
      (sampleFrame 2 30)).state.inactivityTimer = ⟨1000, 2, 0, true⟩ ∧
    (rptIngress cTimer sampleGateway ⟨30, cTimer.ctor 1000⟩
      (sampleFrame 2 30)).state.inactivityTimer ≠ cTimer.ctor 1000 := by
  decide

/-- C5, as amended: for a loop state whose current DG-ID is an index of the
table and a repeater frame (YSFD tag, valid FICH) whose data type is not in
the allowed-modes mask of the binding of the slot `c` that is current after
the switch step (`c` non-zero and bound), processing the frame makes no write
to any backend, and it arms the inactivity timer all the same: the timeout is
set to the RF hang time of that binding and the timer is started, these two
calls being the last ones made. -/
theorem C5_mode_rejected_frame_no_write_timer_armed {τ : Type} (T : TimerOps τ)
    (g : Gateway) (s : State τ) (rd : ReadResult) (fich : CYSFFICH) (c p : Nat)
    (hlen : 0 < rd.len) (htag : rd.buffer.isYSFD = true) (hf : decode rd.buffer = some fich)
    (hs : s.currentDGId < 100)
    (hcur : c = if fich.getDGId ≠ 0 ∧ fich.getDGId ≠ s.currentDGId then fich.getDGId
                else s.currentDGId)
    (hc0 : c ≠ 0) (hc : c < 100) (hp : g.dgIdNetwork c = some p)
    (hm : modeAllowed g.defs fich.getDT (g.net p).m_modes = false) :
    (rptIngress T g s rd).fault = none ∧
    (rptIngress T g s rd).state.currentDGId = c ∧
    (∀ q a b, Action.write q a b ∉ (rptIngress T g s rd).calls) ∧
    (rptIngress T g s rd).state.inactivityTimer =
      T.start (T.setTimeout s.inactivityTimer (g.net p).m_rfHangTime) ∧
    (rptIngress T g s rd).calls =
      (switchDGId g s fich.getDGId).calls ++
        [Action.timerSetTimeout (g.net p).m_rfHangTime, Action.timerStart] := by
  have hsw : switchDGId g s fich.getDGId =
      Out.ok { s with currentDGId := c } (switchDGId g s fich.getDGId).calls := by
    by_cases h : fich.getDGId ≠ 0 ∧ fich.getDGId ≠ s.currentDGId
    · rw [if_pos h] at hcur
      subst hcur
      simp [switchDGId, h, hs, hc, hp, Out.ok]
    · rw [if_neg h] at hcur
      subst hcur
      simp [switchDGId, h, Out.ok]
  have hfw : forwardRpt T g { s with currentDGId := c } fich rd.buffer =
      Out.ok { currentDGId := c, inactivityTimer :=
          T.start (T.setTimeout s.inactivityTimer (g.net p).m_rfHangTime) }
        [Action.timerSetTimeout (g.net p).m_rfHangTime, Action.timerStart] := by
    simp [forwardRpt, hc0, hc, hp, hm]
  have hcalls : (rptIngress T g s rd).calls =
      (switchDGId g s fich.getDGId).calls ++
        [Action.timerSetTimeout (g.net p).m_rfHangTime, Action.timerStart] := by
    simp only [rptIngress, hlen, htag, hf, gt_iff_lt, if_true]
    rw [hsw]
    simp [Out.andThen, Out.ok, hfw]
  refine ⟨?_, ?_, ?_, ?_, hcalls⟩
  · simp only [rptIngress, hlen, htag, hf, gt_iff_lt, if_true]
    rw [hsw]
    simp [Out.andThen, Out.ok, hfw]
  · simp only [rptIngress, hlen, htag, hf, gt_iff_lt, if_true]
    rw [hsw]
    simp [Out.andThen, Out.ok, hfw]
  · intro q a b hmem
    rw [hcalls] at hmem
    rcases List.mem_append.1 hmem with h1 | h1
    · obtain ⟨r, _, h2 | h2⟩ := mem_switchDGId_calls g s _ _ h1 <;> cases h2
    · simp at h1
  · simp only [rptIngress, hlen, htag, hf, gt_iff_lt, if_true]
    rw [hsw]
    simp [Out.andThen, Out.ok, hfw]

/-- C5, as amended, at the mode-filter scenario: current DG-ID 10, a
repeater frame with DG-ID 30 and data type VD mode 2. -/
theorem C5_mode_rejected_frame_no_write_timer_armed_witness :
    (rptIngress cTimer sampleGateway ⟨10, cTimer.ctor 1000⟩ (sampleFrame 2 30)).fault = none ∧
    (rptIngress cTimer sampleGateway ⟨10, cTimer.ctor 1000⟩
      (sampleFrame 2 30)).state.currentDGId = 30 ∧
    (∀ q a b, Action.write q a b ∉
      (rptIngress cTimer sampleGateway ⟨10, cTimer.ctor 1000⟩ (sampleFrame 2 30)).calls) ∧
    (rptIngress cTimer sampleGateway ⟨10, cTimer.ctor 1000⟩
      (sampleFrame 2 30)).state.inactivityTimer =
      cTimer.start (cTimer.setTimeout (cTimer.ctor 1000) (sampleGateway.net 30).m_rfHangTime) ∧
    (rptIngress cTimer sampleGateway ⟨10, cTimer.ctor 1000⟩ (sampleFrame 2 30)).calls =
      (switchDGId sampleGateway (⟨10, cTimer.ctor 1000⟩ : State CTimer)
          (CYSFFICH.getDGId ⟨1, 2, 0, 0, 30⟩)).calls ++
        [Action.timerSetTimeout (sampleGateway.net 30).m_rfHangTime, Action.timerStart] :=
  C5_mode_rejected_frame_no_write_timer_armed cTimer sampleGateway ⟨10, cTimer.ctor 1000⟩
    (sampleFrame 2 30) ⟨1, 2, 0, 0, 30⟩ 30 30 (by decide) (by decide) (by decide)
    (by decide) (by decide) (by decide) (by decide) (by decide) (by decide)

/-! ## C6: frames from inactive slots -/

/-- C6: for a loop state with current DG-ID `j ≠ 0` and a bound slot `i ≠ j`,
the body of the backend loop for `i` reads the frame of slot `i` and drops
it, whatever its length and content: the only call is the read (no write to the repeater,
no call on the timer), and the state, current DG-ID and timer, is left as it
was. -/
theorem C6_inactive_slot_frame_dropped {τ : Type} (T : TimerOps τ) (g : Gateway)
    (read : Nat → ReadResult) (s : State τ) (i p : Nat)
    (hj : s.currentDGId ≠ 0) (hij : i ≠ s.currentDGId) (hp : g.dgIdNetwork i = some p) :
    netIngressSlot T g read s i = Out.ok s [Action.read p i] := by
  simp [netIngressSlot, hp, hj, hij]

/-- C6 at a concrete state: current DG-ID 10, a frame of 155 bytes arriving
on slot 20. -/
theorem C6_inactive_slot_frame_dropped_witness :
    0 < ((fun _ => sampleFrame 0 0) 20 : ReadResult).len ∧
    netIngressSlot cTimer sampleGateway (fun _ => sampleFrame 0 0) ⟨10, cTimer.ctor 1000⟩ 20 =
      Out.ok ⟨10, cTimer.ctor 1000⟩ [Action.read 20 20] :=
  ⟨by decide,
   C6_inactive_slot_frame_dropped cTimer sampleGateway (fun _ => sampleFrame 0 0)
    ⟨10, cTimer.ctor 1000⟩ 20 20 (by decide) (by decide) (by decide)⟩

/-! ## C7: promotion by a network frame -/

theorem Out.andThen_assoc {τ : Type} (o : Out τ) (f h : State τ → Out τ) :
    (o.andThen f).andThen h = o.andThen (fun s => (f s).andThen h) := by
  unfold Out.andThen
  cases ho : o.fault with
  | some x => simp [ho]
  | none =>
    cases hf : (f o.state).fault with
    | some y => simp [hf]
    | none => simp [hf, List.append_assoc]

theorem Out.ok_andThen {τ : Type} (s : State τ) (calls : List Action) (f : State τ → Out τ) :
    (Out.ok s calls).andThen f = ⟨(f s).state, calls ++ (f s).calls, (f s).fault⟩ := by
  simp [Out.andThen, Out.ok]

/-- The backend loop over a range splits at any index of the range. -/
theorem netIngressFrom_add {τ : Type} (T : TimerOps τ) (g : Gateway)
    (read : Nat → ReadResult) :
    ∀ (n m lo : Nat) (s : State τ),
      netIngressFrom T g read s lo (n + m) =
        (netIngressFrom T g read s lo n).andThen
          (fun s1 => netIngressFrom T g read s1 (lo + n) m) := by
  intro n
  induction n with
  | zero =>
    intro m lo s
    simp only [Nat.zero_add, netIngressFrom, Nat.add_zero]
    rw [Out.ok_andThen]
    simp
  | succ n ih =>
    intro m lo s
    have e : n + 1 + m = (n + m) + 1 := by omega
    rw [e, netIngressFrom, netIngressFrom, Out.andThen_assoc]
    congr 1
    funext s1
    rw [ih m (lo + 1) s1]
    have e2 : lo + 1 + n = lo + (n + 1) := by omega
    rw [e2]

/-- Over a range in which no slot delivers a frame that the loop accepts, the
backend loop only reads. -/
theorem netIngressFrom_all_dropped {τ : Type} (T : TimerOps τ) (g : Gateway)
    (read : Nat → ReadResult) (s : State τ) :
    ∀ (n lo : Nat),
      (∀ k, lo ≤ k → k < lo + n →
        ¬ (0 < (read k).len ∧ (k = s.currentDGId ∨ s.currentDGId = 0))) →
      netIngressFrom T g read s lo n = Out.ok s (readCalls g lo n) := by
  intro n
  induction n with
  | zero => intro lo _; rfl
  | succ n ih =>
    intro lo h
    have h0 := h lo (le_refl _) (by omega)
    have hslot : netIngressSlot T g read s lo =
        Out.ok s (match g.dgIdNetwork lo with
          | some p => [Action.read p lo]
          | none => []) := by
      unfold netIngressSlot
      cases hp : g.dgIdNetwork lo with
      | none => rfl
      | some p =>
        have h0' : ¬ ((read lo).len > 0 ∧ (lo = s.currentDGId ∨ s.currentDGId = 0)) := h0
        simp only [h0', if_false]
    rw [netIngressFrom, hslot, Out.ok_andThen, ih (lo + 1) (fun k h1 h2 => h k (by omega) (by omega))]
    simp [Out.ok, readCalls]

/-- C7: for a loop state with current DG-ID 0 and a bound slot `i` of 1..99
(static or not), when in one iteration the repeater delivers nothing, no slot
below `i` delivers a frame, and the backend of slot `i` delivers a frame
tagged YSFD with a valid FICH, the two ingress steps of the iteration
complete with these calls, in this order: the repeater read, the reads of the
bound slots below `i`, the read of slot `i`, the write of that frame to the
repeater re-encoded with DG-ID `i`, the timeout of the inactivity timer set
to the network hang time of slot `i`, the start of the timer, and the reads
of the bound slots above `i`.  The current DG-ID is then `i` and the timer is
the old one set and started in that way. -/
theorem C7_network_frame_promotes {τ : Type} (T : TimerOps τ) (g : Gateway) (s : State τ)
    (inp : Input) (i p : Nat) (fich : CYSFFICH)
    (hc : s.currentDGId = 0) (hi1 : 1 ≤ i) (hi : i < 100) (hp : g.dgIdNetwork i = some p)
    (hrpt : inp.rpt.len = 0)
    (hbelow : ∀ k, 1 ≤ k → k < i → (inp.net k).len = 0)
    (hlen : 0 < (inp.net i).len) (htag : (inp.net i).buffer.isYSFD = true)
    (hf : decode (inp.net i).buffer = some fich) :
    (ingress T g s inp).fault = none ∧
    (ingress T g s inp).state.currentDGId = i ∧
    (ingress T g s inp).state.inactivityTimer =
      T.start (T.setTimeout s.inactivityTimer (g.net p).m_netHangTime) ∧
    (ingress T g s inp).calls =
      [Action.rptRead] ++ readCalls g 1 (i - 1) ++
      [Action.read p i,
       Action.rptWrite (encode (fich.setDGId i) (inp.net i).buffer),
       Action.timerSetTimeout (g.net p).m_netHangTime,
       Action.timerStart] ++
      readCalls g (i + 1) (99 - i) ∧
    (encode (fich.setDGId i) (inp.net i).buffer).fichDGId = some i := by
  have hrd : rptIngress T g s inp.rpt = Out.ok s [] := by
    simp [rptIngress, hrpt]
  have hlow : netIngressFrom T g inp.net s 1 (i - 1) = Out.ok s (readCalls g 1 (i - 1)) := by
    apply netIngressFrom_all_dropped
    intro k h1 h2 hk
    have := hbelow k h1 (by omega)
    omega
  have hmid : netIngressSlot T g inp.net s i =
      Out.ok { currentDGId := i, inactivityTimer :=
          T.start (T.setTimeout s.inactivityTimer (g.net p).m_netHangTime) }
        [Action.read p i,
         Action.rptWrite (encode (fich.setDGId i) (inp.net i).buffer),
         Action.timerSetTimeout (g.net p).m_netHangTime,
         Action.timerStart] := by
    simp [netIngressSlot, hp, hlen, hc, htag, hf]
  have hhigh : ∀ s1 : State τ, s1.currentDGId = i →
      netIngressFrom T g inp.net s1 (i + 1) (99 - i) =
        Out.ok s1 (readCalls g (i + 1) (99 - i)) := by
    intro s1 hs1
    apply netIngressFrom_all_dropped
    intro k h1 h2 hk
    rw [hs1] at hk
    omega
  have hrest : netIngressFrom T g inp.net s i ((99 - i) + 1) =
      Out.ok { currentDGId := i, inactivityTimer :=
          T.start (T.setTimeout s.inactivityTimer (g.net p).m_netHangTime) }
        ([Action.read p i,
          Action.rptWrite (encode (fich.setDGId i) (inp.net i).buffer),
          Action.timerSetTimeout (g.net p).m_netHangTime,
          Action.timerStart] ++ readCalls g (i + 1) (99 - i)) := by
    rw [netIngressFrom, hmid, Out.ok_andThen, hhigh _ rfl]
    rfl
  have hnet : netIngress T g inp.net s =
      Out.ok { currentDGId := i, inactivityTimer :=
          T.start (T.setTimeout s.inactivityTimer (g.net p).m_netHangTime) }
        (readCalls g 1 (i - 1) ++
          ([Action.read p i,
            Action.rptWrite (encode (fich.setDGId i) (inp.net i).buffer),
            Action.timerSetTimeout (g.net p).m_netHangTime,
            Action.timerStart] ++ readCalls g (i + 1) (99 - i))) := by
    have e : netIngress T g inp.net s =
        netIngressFrom T g inp.net s 1 ((i - 1) + ((99 - i) + 1)) := by
      unfold netIngress
      congr 1
      omega
    have e1 : 1 + (i - 1) = i := by omega
    rw [e, netIngressFrom_add, hlow, Out.ok_andThen, e1, hrest]
    rfl
  have hall : ingress T g s inp =
      Out.ok { currentDGId := i, inactivityTimer :=
          T.start (T.setTimeout s.inactivityTimer (g.net p).m_netHangTime) }
        ([Action.rptRead] ++ readCalls g 1 (i - 1) ++
          [Action.read p i,
           Action.rptWrite (encode (fich.setDGId i) (inp.net i).buffer),
           Action.timerSetTimeout (g.net p).m_netHangTime,
           Action.timerStart] ++
          readCalls g (i + 1) (99 - i)) := by
    unfold ingress
    rw [Out.ok_andThen, hrd]
    simp [Out.andThen, Out.ok, hnet]
  rw [hall]
  exact ⟨rfl, rfl, rfl, rfl, rfl⟩

set_option maxRecDepth 8000 in
/-- C7 at the network promotion of the scenarios: current DG-ID 0, the static
slot 5 delivers a YSFD frame; the frame goes to the repeater with DG-ID 5,
the current DG-ID becomes 5 and the timer is armed with the network hang
time 3 of slot 5. -/
theorem C7_network_frame_promotes_witness :
    (ingress cTimer sampleGateway (startup cTimer) promotionInput).fault = none ∧
    (ingress cTimer sampleGateway (startup cTimer) promotionInput).state.currentDGId = 5 ∧
    (ingress cTimer sampleGateway (startup cTimer) promotionInput).state.inactivityTimer =
      cTimer.start (cTimer.setTimeout (cTimer.ctor 1000) 3) ∧
    (ingress cTimer sampleGateway (startup cTimer) promotionInput).calls =
      [Action.rptRead, Action.read 5 5,
       Action.rptWrite (encode ⟨1, 0, 0, 0, 5⟩ (sampleFrame 0 0).buffer),
       Action.timerSetTimeout 3, Action.timerStart,
       Action.read 10 10, Action.read 20 20, Action.read 30 30] ∧
    (encode ((⟨1, 0, 0, 0, 0⟩ : CYSFFICH).setDGId 5) (promotionInput.net 5).buffer).fichDGId
      = some 5 :=
  C7_network_frame_promotes cTimer sampleGateway (startup cTimer) promotionInput 5 5
    ⟨1, 0, 0, 0, 0⟩ rfl (by decide) (by decide) (by decide) (by decide)
    (fun k _ hk => by
      have hk5 : k ≠ 5 := by omega
      simp [promotionInput, hk5, noFrame])
    (by decide) (by decide) (by decide)

/-! ## C8: inactivity expiry -/

/-- C8: on a loop state, taken after the tick, whose current DG-ID is an index
of the table: when the inactivity timer is running and has expired, the
expiry step makes exactly three unlink calls on the object of the current
slot if that slot is bound and non-static and none otherwise, stops the timer
and sets the current DG-ID to 0; when the timer is not running or has not
expired, the step makes no call and leaves the state as it was. -/
theorem C8_expiry_step {τ : Type} (T : TimerOps τ) (g : Gateway) (s : State τ)
    (hc : s.currentDGId < 100) :
    (T.isRunning s.inactivityTimer = true ∧ T.hasExpired s.inactivityTimer = true →
      expiry T g s =
        Out.ok { currentDGId := 0, inactivityTimer := T.stop s.inactivityTimer }
          ((match g.dgIdNetwork s.currentDGId with
            | some p => if (g.net p).m_static then [] else List.replicate 3 (Action.unlink p)
            | none => []) ++ [Action.timerStop])) ∧
    (¬ (T.isRunning s.inactivityTimer = true ∧ T.hasExpired s.inactivityTimer = true) →
      expiry T g s = Out.ok s []) := by
  constructor
  · intro h
    have hun : unlinkCalls g (g.dgIdNetwork s.currentDGId) =
        (match g.dgIdNetwork s.currentDGId with
          | some p => if (g.net p).m_static then [] else List.replicate 3 (Action.unlink p)
          | none => []) := by
      unfold unlinkCalls
      cases g.dgIdNetwork s.currentDGId <;> simp [List.replicate]
    simp [expiry, h.1, h.2, hc, hun]
  · intro h
    have h1 : (T.isRunning s.inactivityTimer && T.hasExpired s.inactivityTimer) = false := by
      cases hr : T.isRunning s.inactivityTimer <;> cases he : T.hasExpired s.inactivityTimer <;>
        simp_all
    simp [expiry, h1]

/-- C8 at the timeout of the scenarios: current DG-ID 10 (non-static), the
timer armed with 2 and clocked to 2, so running and expired: three unlinks on
the object of slot 10, the timer stopped, the current DG-ID back to 0. -/
theorem C8_expiry_step_witness :
    (cTimer.isRunning (⟨1000, 2, 2, true⟩ : CTimer) = true ∧
      cTimer.hasExpired (⟨1000, 2, 2, true⟩ : CTimer) = true) ∧
    expiry cTimer sampleGateway ⟨10, ⟨1000, 2, 2, true⟩⟩ =
      Out.ok { currentDGId := 0, inactivityTimer := ⟨1000, 2, 2, false⟩ }
        [Action.unlink 10, Action.unlink 10, Action.unlink 10, Action.timerStop] :=
  ⟨by decide,
   (C8_expiry_step cTimer sampleGateway ⟨10, ⟨1000, 2, 2, true⟩⟩ (by decide)).1 (by decide)⟩

/-! ## C9: no link or unlink call on a static binding -/

/-- C9: in a run of the routing loop over any sequence of inputs, from any
state and with any timer, every link call and every unlink call is made on an
object whose static flag is not set. -/
theorem C9_no_link_unlink_on_static {τ : Type} (T : TimerOps τ) (g : Gateway) (s : State τ)
    (inputs : List Input) (p : Nat)
    (h : Action.link p ∈ (run T g s inputs).calls ∨
      Action.unlink p ∈ (run T g s inputs).calls) :
    (g.net p).m_static = false := by
  have key : ∀ a : Action, a ∈ (run T g s inputs).calls →
      (a = Action.link p ∨ a = Action.unlink p) → (g.net p).m_static = false := by
    intro a ha hlu
    obtain ⟨s0, inp, _, h0⟩ := mem_run_calls T g a inputs s ha
    rcases mem_iteration_calls T g s0 inp a h0 with
      h1 | h1 | ⟨s1, i, _, _, h1⟩ | ⟨s1, h1⟩ | ⟨s1, h1⟩
    · rcases hlu with h2 | h2 <;> rw [h2] at h1 <;> cases h1
    · rcases mem_rptIngress_calls T g s0 inp.rpt a h1 with
        ⟨q, hq, h2 | h2⟩ | ⟨q, d, fich, _, _, h2⟩ | ⟨n, h2⟩ | h2
      · rcases hlu with h3 | h3 <;> rw [h3] at h2 <;> cases h2
        exact hq
      · rcases hlu with h3 | h3 <;> rw [h3] at h2 <;> cases h2
        exact hq
      · rcases hlu with h3 | h3 <;> rw [h3] at h2 <;> cases h2
      · rcases hlu with h3 | h3 <;> rw [h3] at h2 <;> cases h2
      · rcases hlu with h3 | h3 <;> rw [h3] at h2 <;> cases h2
    · rcases mem_netIngressSlot_calls T g inp.net s1 i a h1 with
        ⟨q, _, h2⟩ | ⟨q, fich, _, _, _, h2⟩ | ⟨n, h2⟩ | h2 <;>
      rcases hlu with h3 | h3 <;> rw [h3] at h2 <;> cases h2
    · rcases mem_tick_calls g s1 inp.ms a h1 with h2 | ⟨q, h2⟩ <;>
      rcases hlu with h3 | h3 <;> rw [h3] at h2 <;> cases h2
    · rcases mem_inactivity_calls T g s1 inp.ms a h1 with h2 | h2 | ⟨q, hq, h2⟩
      · rcases hlu with h3 | h3 <;> rw [h3] at h2 <;> cases h2
      · rcases hlu with h3 | h3 <;> rw [h3] at h2 <;> cases h2
      · rcases hlu with h3 | h3 <;> rw [h3] at h2 <;> cases h2
        exact hq
  rcases h with h | h
  · exact key _ h (Or.inl rfl)
  · exact key _ h (Or.inr rfl)

/-- C9 at the cold switch of the scenarios: the link calls of the run are made
on the object of slot 10, which is not static. -/
theorem C9_no_link_unlink_on_static_witness :
    (Action.link 10 ∈ (run cTimer sampleGateway (startup cTimer)
        [⟨sampleFrame 0 10, fun _ => noFrame, 1⟩]).calls ∨
      Action.unlink 10 ∈ (run cTimer sampleGateway (startup cTimer)
        [⟨sampleFrame 0 10, fun _ => noFrame, 1⟩]).calls) ∧
    (sampleGateway.net 10).m_static = false :=
  ⟨Or.inl (by decide),
   C9_no_link_unlink_on_static cTimer sampleGateway (startup cTimer)
    [⟨sampleFrame 0 10, fun _ => noFrame, 1⟩] 10 (Or.inl (by decide))⟩

/-! ## C10: the mode filter on backend writes -/

theorem Out.filter_andThen_calls {τ : Type} (P : Action → Bool) (o : Out τ)
    (f : State τ → Out τ) (h : ∀ s a, a ∈ (f s).calls → P a = false) :
    (o.andThen f).calls.filter P = o.calls.filter P := by
  unfold Out.andThen
  split
  · rfl
  · have hnil : List.filter P (f o.state).calls = [] := by
      rw [List.filter_eq_nil_iff]
      intro a ha
      simp [h o.state a ha]
    simp [List.filter_append, hnil]

/-- The test of lines 401-404 holds exactly when the bit of the data type of
the frame is set in the mask. -/
theorem modeAllowed_iff (d : YSFDefines) (dt m_modes : Nat) :
    modeAllowed d dt m_modes = true ↔
      ((dt = d.YSF_DT_VD_MODE1 ∧ m_modes &&& DT_VD_MODE1 ≠ 0) ∨
       (dt = d.YSF_DT_VD_MODE2 ∧ m_modes &&& DT_VD_MODE2 ≠ 0) ∨
       (dt = d.YSF_DT_VOICE_FR_MODE ∧ m_modes &&& DT_VOICE_FR_MODE ≠ 0) ∨
       (dt = d.YSF_DT_DATA_FR_MODE ∧ m_modes &&& DT_DATA_FR_MODE ≠ 0)) := by
  simp only [modeAllowed, Bool.or_eq_true, Bool.and_eq_true, beq_iff_eq, bne_iff_ne, ne_eq]
  tauto

/-- C10: for a loop state whose current DG-ID is an index of the table and a
repeater frame (YSFD tag, valid FICH) after whose switch step the current
DG-ID `c` is non-zero and bound, the backend writes of the whole iteration
are: exactly one write, on the object of slot `c` with the slot argument `c`
and the frame re-encoded with DG-ID 0, when the data type of the frame (VD
mode 1, VD mode 2, voice FR, data FR) has its bit set in the allowed-modes
mask of slot `c`; none at all otherwise. -/
theorem C10_backend_write_iff_mode_allowed {τ : Type} (T : TimerOps τ) (g : Gateway)
    (s : State τ) (inp : Input) (fich : CYSFFICH) (c p : Nat)
    (hlen : 0 < inp.rpt.len) (htag : inp.rpt.buffer.isYSFD = true)
    (hf : decode inp.rpt.buffer = some fich)
    (hs : s.currentDGId < 100)
    (hcur : c = if fich.getDGId ≠ 0 ∧ fich.getDGId ≠ s.currentDGId then fich.getDGId
                else s.currentDGId)
    (hc0 : c ≠ 0) (hc : c < 100) (hp : g.dgIdNetwork c = some p) :
    (iteration T g s inp).calls.filter Action.isWrite =
      if (fich.getDT = g.defs.YSF_DT_VD_MODE1 ∧ (g.net p).m_modes &&& DT_VD_MODE1 ≠ 0) ∨
         (fich.getDT = g.defs.YSF_DT_VD_MODE2 ∧ (g.net p).m_modes &&& DT_VD_MODE2 ≠ 0) ∨
         (fich.getDT = g.defs.YSF_DT_VOICE_FR_MODE ∧
            (g.net p).m_modes &&& DT_VOICE_FR_MODE ≠ 0) ∨
         (fich.getDT = g.defs.YSF_DT_DATA_FR_MODE ∧
            (g.net p).m_modes &&& DT_DATA_FR_MODE ≠ 0)
      then [Action.write p c (encode (fich.setDGId 0) inp.rpt.buffer)]
      else [] := by
  have hsw : switchDGId g s fich.getDGId =
      Out.ok { s with currentDGId := c } (switchDGId g s fich.getDGId).calls := by
    by_cases h : fich.getDGId ≠ 0 ∧ fich.getDGId ≠ s.currentDGId
    · rw [if_pos h] at hcur
      subst hcur
      simp [switchDGId, h, hs, hc, hp, Out.ok]
    · rw [if_neg h] at hcur
      subst hcur
      simp [switchDGId, h, Out.ok]
  have hswf : (switchDGId g s fich.getDGId).calls.filter Action.isWrite = [] := by
    rw [List.filter_eq_nil_iff]
    intro a ha
    obtain ⟨r, _, h2 | h2⟩ := mem_switchDGId_calls g s _ _ ha <;> rw [h2] <;> simp [Action.isWrite]
  have hrpt : (rptIngress T g s inp.rpt).calls.filter Action.isWrite =
      if modeAllowed g.defs fich.getDT (g.net p).m_modes = true
      then [Action.write p c (encode (fich.setDGId 0) inp.rpt.buffer)] else [] := by
    simp only [rptIngress, hlen, htag, hf, gt_iff_lt, if_true]
    rw [hsw]
    simp only [Out.ok_andThen, List.filter_append, hswf, List.nil_append]
    by_cases hm : modeAllowed g.defs fich.getDT (g.net p).m_modes = true
    · simp [forwardRpt, hc0, hc, hp, hm, Out.ok, Action.isWrite, List.filter]
    · simp [forwardRpt, hc0, hc, hp, hm, Out.ok, Action.isWrite, List.filter]
  have hnet : ∀ (s2 : State τ) (a : Action), a ∈ (netIngress T g inp.net s2).calls →
      Action.isWrite a = false := by
    intro s2 a ha
    obtain ⟨s1, i, _, _, h1⟩ := mem_netIngressFrom_calls T g inp.net a _ _ _ ha
    rcases mem_netIngressSlot_calls T g inp.net s1 i a h1 with
      ⟨q, _, h2⟩ | ⟨q, f1, _, _, _, h2⟩ | ⟨n, h2⟩ | h2 <;> rw [h2] <;> rfl
  have htick : ∀ (s3 : State τ) (a : Action), a ∈ (tick g s3 inp.ms).calls →
      Action.isWrite a = false := by
    intro s3 a ha
    rcases mem_tick_calls g s3 inp.ms a ha with h2 | ⟨q, h2⟩ <;> rw [h2] <;> rfl
  have hina : ∀ (s4 : State τ) (a : Action), a ∈ (inactivity T g s4 inp.ms).calls →
      Action.isWrite a = false := by
    intro s4 a ha
    rcases mem_inactivity_calls T g s4 inp.ms a ha with h2 | h2 | ⟨q, _, h2⟩ <;>
      rw [h2] <;> rfl
  have hiter : (iteration T g s inp).calls.filter Action.isWrite =
      (rptIngress T g s inp.rpt).calls.filter Action.isWrite := by
    unfold iteration ingress
    rw [Out.filter_andThen_calls _ _ _ hina, Out.filter_andThen_calls _ _ _ htick,
      Out.filter_andThen_calls _ _ _ hnet, Out.ok_andThen]
    simp [List.filter, Action.isWrite]
  rw [hiter, hrpt]
  simp only [modeAllowed_iff]

/-- C10 at the cold switch of the scenarios: from startup, a repeater frame
with DG-ID 10 and data type VD mode 1 gives one backend write in the
iteration, on slot 10. -/
theorem C10_backend_write_iff_mode_allowed_witness :
    (iteration cTimer sampleGateway (startup cTimer)
        ⟨sampleFrame 0 10, fun _ => noFrame, 1⟩).calls.filter Action.isWrite =
      [Action.write 10 10 (encode ⟨1, 0, 0, 0, 0⟩ (sampleFrame 0 10).buffer)] :=
  C10_backend_write_iff_mode_allowed cTimer sampleGateway (startup cTimer)
    ⟨sampleFrame 0 10, fun _ => noFrame, 1⟩ ⟨1, 0, 0, 0, 10⟩ 10 10
    (by decide) (by decide) (by decide) (by decide) (by decide) (by decide) (by decide)
    (by decide)

/-! ## C17: a repeater frame with DG-ID 0 -/

/-- C17: for any loop state and a repeater frame (YSFD tag, valid FICH) whose
FICH DG-ID is 0, the switch step does nothing: it completes with no call and
leaves the state as it was, so processing the frame is the forwarding step on
the unchanged state: the current DG-ID is unchanged, no link or unlink call
is made, and, when the current slot `c` is non-zero and bound, the frame is
written to the backend of slot `c` exactly when the mode filter lets it
through, and the timer is armed with the RF hang time of slot `c`. -/
theorem C17_rf_dgid_zero_is_no_switch {τ : Type} (T : TimerOps τ) (g : Gateway)
    (s : State τ) (rd : ReadResult) (fich : CYSFFICH)
    (hlen : 0 < rd.len) (htag : rd.buffer.isYSFD = true) (hf : decode rd.buffer = some fich)
    (hd : fich.getDGId = 0) :
    switchDGId g s fich.getDGId = Out.ok s [] ∧
    rptIngress T g s rd = forwardRpt T g s fich rd.buffer ∧
    (rptIngress T g s rd).state.currentDGId = s.currentDGId ∧
    (∀ p, Action.link p ∉ (rptIngress T g s rd).calls ∧
      Action.unlink p ∉ (rptIngress T g s rd).calls) ∧
    (∀ p, s.currentDGId ≠ 0 → s.currentDGId < 100 →
      g.dgIdNetwork s.currentDGId = some p →
      rptIngress T g s rd =
        Out.ok ⟨s.currentDGId,
            T.start (T.setTimeout s.inactivityTimer (g.net p).m_rfHangTime)⟩
          ((if modeAllowed g.defs fich.getDT (g.net p).m_modes then
              [Action.write p s.currentDGId (encode (fich.setDGId 0) rd.buffer)]
            else []) ++
            [Action.timerSetTimeout (g.net p).m_rfHangTime, Action.timerStart])) := by
  have hsw : switchDGId g s fich.getDGId = Out.ok s [] := by
    simp [switchDGId, hd]
  have hrpt : rptIngress T g s rd = forwardRpt T g s fich rd.buffer := by
    simp only [rptIngress, hlen, htag, hf, hsw, gt_iff_lt, if_true]
    simp [Out.andThen, Out.ok]
  refine ⟨hsw, hrpt, ?_, ?_, ?_⟩
  · rw [hrpt, forwardRpt_currentDGId]
  · intro p
    rw [hrpt]
    constructor
    · intro h
      rcases mem_forwardRpt_calls T g s fich rd.buffer _ h with ⟨q, _, h2⟩ | ⟨n, h2⟩ | h2 <;>
        cases h2
    · intro h
      rcases mem_forwardRpt_calls T g s fich rd.buffer _ h with ⟨q, _, h2⟩ | ⟨n, h2⟩ | h2 <;>
        cases h2
  · intro p hc0 hc hp
    rw [hrpt]
    simp [forwardRpt, hc0, hc, hp]

/-- C17 at a concrete state: current DG-ID 10, a repeater frame with DG-ID 0
and data type VD mode 1 goes to the backend of slot 10 with no link or unlink
call. -/
theorem C17_rf_dgid_zero_is_no_switch_witness :
    rptIngress cTimer sampleGateway ⟨10, cTimer.ctor 1000⟩ (sampleFrame 0 0) =
      Out.ok ⟨10, ⟨1000, 2, 0, true⟩⟩
        [Action.write 10 10 (encode ⟨1, 0, 0, 0, 0⟩ (sampleFrame 0 0).buffer),
         Action.timerSetTimeout 2, Action.timerStart] :=
  (C17_rf_dgid_zero_is_no_switch cTimer sampleGateway ⟨10, cTimer.ctor 1000⟩ (sampleFrame 0 0)
    ⟨1, 0, 0, 0, 0⟩ (by decide) (by decide) (by decide) (by decide)).2.2.2.2 10
    (by decide) (by decide) (by decide)

/-! ## C19: several backends deliver in one iteration -/

/-- Over a range in which the body of the backend loop only reads, whatever
the slot, the loop only reads. -/
theorem netIngressFrom_only_reads {τ : Type} (T : TimerOps τ) (g : Gateway)
    (read : Nat → ReadResult) (s : State τ) :
    ∀ (n lo : Nat),
      (∀ k, lo ≤ k → k < lo + n →
        netIngressSlot T g read s k =
          Out.ok s (match g.dgIdNetwork k with
            | some p => [Action.read p k]
            | none => [])) →
      netIngressFrom T g read s lo n = Out.ok s (readCalls g lo n) := by
  intro n
  induction n with
  | zero => intro lo _; rfl
  | succ n ih =>
    intro lo h
    rw [netIngressFrom, h lo (le_refl _) (by omega), Out.ok_andThen,
      ih (lo + 1) (fun k h1 h2 => h k (by omega) (by omega))]
    simp [Out.ok, readCalls]

/-- C19: when the backend loop of an iteration starts with current DG-ID 0,
and `m` is the lowest-indexed bound slot of 1..99 that delivers a frame tagged
YSFD with a valid FICH, then, whatever the higher-indexed slots deliver, the
loop completes with these calls in this order: the reads of the bound slots
below `m`, the read of slot `m`, the write of its frame to the repeater with
DG-ID `m`, the two calls that arm the timer with the network hang time of
slot `m`, and the reads of the bound slots above `m`.  So the frame of slot
`m` is the only one written to the repeater, the frames of the higher slots
are read and not forwarded, the timer is touched for the frame of slot `m`
only, and the current DG-ID becomes `m`. -/
theorem C19_lowest_delivering_slot_wins {τ : Type} (T : TimerOps τ) (g : Gateway)
    (read : Nat → ReadResult) (s : State τ) (m p : Nat) (fich : CYSFFICH)
    (hc : s.currentDGId = 0) (hm1 : 1 ≤ m) (hm : m < 100) (hp : g.dgIdNetwork m = some p)
    (hlen : 0 < (read m).len) (htag : (read m).buffer.isYSFD = true)
    (hf : decode (read m).buffer = some fich)
    (hlow : ∀ k q, 1 ≤ k → k < m → g.dgIdNetwork k = some q → 0 < (read k).len →
      (read k).buffer.isYSFD = true → decode (read k).buffer = none) :
    netIngress T g read s =
      Out.ok ⟨m, T.start (T.setTimeout s.inactivityTimer (g.net p).m_netHangTime)⟩
        (readCalls g 1 (m - 1) ++
          [Action.read p m,
           Action.rptWrite (encode (fich.setDGId m) (read m).buffer),
           Action.timerSetTimeout (g.net p).m_netHangTime,
           Action.timerStart] ++
          readCalls g (m + 1) (99 - m)) := by
  have hbelow : netIngressFrom T g read s 1 (m - 1) = Out.ok s (readCalls g 1 (m - 1)) := by
    apply netIngressFrom_only_reads
    intro k h1 h2
    unfold netIngressSlot
    cases hq : g.dgIdNetwork k with
    | none => rfl
    | some q =>
      by_cases hl : 0 < (read k).len
      · by_cases ht : (read k).buffer.isYSFD = true
        · have hd := hlow k q h1 (by omega) hq hl ht
          simp [hl, hc, ht, hd]
        · simp [hl, hc, ht]
      · simp [hl]
  have hmid : netIngressSlot T g read s m =
      Out.ok ⟨m, T.start (T.setTimeout s.inactivityTimer (g.net p).m_netHangTime)⟩
        [Action.read p m,
         Action.rptWrite (encode (fich.setDGId m) (read m).buffer),
         Action.timerSetTimeout (g.net p).m_netHangTime,
         Action.timerStart] := by
    simp [netIngressSlot, hp, hlen, hc, htag, hf]
  have habove : ∀ s1 : State τ, s1.currentDGId = m →
      netIngressFrom T g read s1 (m + 1) (99 - m) =
        Out.ok s1 (readCalls g (m + 1) (99 - m)) := by
    intro s1 hs1
    apply netIngressFrom_all_dropped
    intro k h1 h2 hk
    rw [hs1] at hk
    omega
  have hrest : netIngressFrom T g read s m ((99 - m) + 1) =
      Out.ok ⟨m, T.start (T.setTimeout s.inactivityTimer (g.net p).m_netHangTime)⟩
        ([Action.read p m,
          Action.rptWrite (encode (fich.setDGId m) (read m).buffer),
          Action.timerSetTimeout (g.net p).m_netHangTime,
          Action.timerStart] ++ readCalls g (m + 1) (99 - m)) := by
    rw [netIngressFrom, hmid, Out.ok_andThen, habove _ rfl]
    rfl
  have e : netIngress T g read s =
      netIngressFrom T g read s 1 ((m - 1) + ((99 - m) + 1)) := by
    unfold netIngress
    congr 1
    omega
  have e1 : 1 + (m - 1) = m := by omega
  rw [e, netIngressFrom_add, hbelow, Out.ok_andThen, e1, hrest]
  simp [Out.ok]

set_option maxRecDepth 8000 in
/-- C19 at a concrete iteration: current DG-ID 0, the slots 10, 20 and 30
each deliver a YSFD frame; only the frame of slot 10 goes to the repeater,
the slots 20 and 30 are read and nothing more. -/
theorem C19_lowest_delivering_slot_wins_witness :
    netIngress cTimer sampleGateway threeFrames (startup cTimer) =
      Out.ok ⟨10, ⟨1000, 3, 0, true⟩⟩
        [Action.read 5 5, Action.read 10 10,
         Action.rptWrite (encode ⟨1, 0, 0, 0, 10⟩ (sampleFrame 0 0).buffer),
         Action.timerSetTimeout 3, Action.timerStart,
         Action.read 20 20, Action.read 30 30] :=
  C19_lowest_delivering_slot_wins cTimer sampleGateway threeFrames (startup cTimer) 10 10
    ⟨1, 0, 0, 0, 0⟩ rfl (by decide) (by decide) (by decide) (by decide) (by decide)
    (by decide)
    (fun k q _ hk _ hl => by
      have h10 : k ≠ 10 := by omega
      have h20 : k ≠ 20 := by omega
      have h30 : k ≠ 30 := by omega
      simp [threeFrames, h10, h20, h30, noFrame] at hl)

/-! ## C18: a running timer goes with an active conversation -/

theorem Out.andThen_state {τ : Type} (P : State τ → Prop) (o : Out τ)
    (f : State τ → Out τ) (ho : P o.state) (hf : ∀ s, P s → P (f s).state) :
    P (o.andThen f).state := by
  unfold Out.andThen
  split
  · exact ho
  · exact hf _ ho

theorem cTimer_lawful : cTimer.Lawful := by
  refine ⟨fun n => rfl, fun t => rfl, ?_⟩
  intro t ms h
  simp only [cTimer] at h ⊢
  split at h
  · assumption
  · exact h

theorem switchDGId_runningImpliesActive {τ : Type} (T : TimerOps τ) (g : Gateway)
    (s : State τ) (dgId : Nat) (hs : runningImpliesActive T s) :
    runningImpliesActive T (switchDGId g s dgId).state := by
  unfold switchDGId
  split
  · rename_i hsw
    split
    · split
      · split
        · intro _
          exact hsw.1
        · exact hs
      · exact hs
    · exact hs
  · exact hs

theorem forwardRpt_runningImpliesActive {τ : Type} (T : TimerOps τ) (g : Gateway)
    (s : State τ) (fich : CYSFFICH) (buffer : Buffer) (hs : runningImpliesActive T s) :
    runningImpliesActive T (forwardRpt T g s fich buffer).state := by
  unfold forwardRpt
  split
  · rename_i hc0
    split
    · split
      · intro _
        exact hc0
      · exact hs
    · exact hs
  · exact hs

theorem rptIngress_runningImpliesActive {τ : Type} (T : TimerOps τ) (g : Gateway)
    (s : State τ) (rd : ReadResult) (hs : runningImpliesActive T s) :
    runningImpliesActive T (rptIngress T g s rd).state := by
  unfold rptIngress
  split
  · split
    · split
      · exact Out.andThen_state (runningImpliesActive T) _ _
          (switchDGId_runningImpliesActive T g s _ hs)
          (fun s1 h1 => forwardRpt_runningImpliesActive T g s1 _ _ h1)
      · exact hs
    · exact hs
  · exact hs

theorem netIngressSlot_runningImpliesActive {τ : Type} (T : TimerOps τ) (g : Gateway)
    (read : Nat → ReadResult) (s : State τ) (i : Nat) (hi : 1 ≤ i)
    (hs : runningImpliesActive T s) :
    runningImpliesActive T (netIngressSlot T g read s i).state := by
  unfold netIngressSlot
  split
  · exact hs
  · split
    · rename_i hacc
      split
      · split
        · intro _
          show (if s.currentDGId = 0 then i else s.currentDGId) ≠ 0
          by_cases hc : s.currentDGId = 0
          · rw [if_pos hc]; omega
          · rw [if_neg hc]; exact hc
        · exact hs
      · exact hs
    · exact hs

theorem netIngressFrom_runningImpliesActive {τ : Type} (T : TimerOps τ) (g : Gateway)
    (read : Nat → ReadResult) :
    ∀ (n lo : Nat) (s : State τ), 1 ≤ lo → runningImpliesActive T s →
      runningImpliesActive T (netIngressFrom T g read s lo n).state := by
  intro n
  induction n with
  | zero => intro lo s _ hs; exact hs
  | succ n ih =>
    intro lo s hlo hs
    rw [netIngressFrom]
    exact Out.andThen_state (runningImpliesActive T) _ _
      (netIngressSlot_runningImpliesActive T g read s lo hlo hs)
      (fun s1 h1 => ih (lo + 1) s1 (by omega) h1)

theorem inactivity_runningImpliesActive {τ : Type} (T : TimerOps τ) (hT : T.Lawful)
    (g : Gateway) (s : State τ) (ms : Nat) (hs : runningImpliesActive T s) :
    runningImpliesActive T (inactivity T g s ms).state := by
  unfold inactivity
  refine Out.andThen_state (runningImpliesActive T) _ _ ?_ ?_
  · intro h
    exact hs (hT.2.2 _ _ h)
  · intro s1 h1
    unfold expiry
    split
    · split
      · intro h
        have := hT.2.1 s1.inactivityTimer
        simp only [Out.ok] at h
        rw [this] at h
        cases h
      · exact h1
    · exact h1

theorem iteration_runningImpliesActive {τ : Type} (T : TimerOps τ) (hT : T.Lawful)
    (g : Gateway) (s : State τ) (inp : Input) (hs : runningImpliesActive T s) :
    runningImpliesActive T (iteration T g s inp).state := by
  unfold iteration
  refine Out.andThen_state (runningImpliesActive T) _ _ ?_
    (fun s4 h4 => inactivity_runningImpliesActive T hT g s4 inp.ms h4)
  refine Out.andThen_state (runningImpliesActive T) _ _ ?_ (fun s3 h3 => h3)
  unfold ingress
  refine Out.andThen_state (runningImpliesActive T) _ _ ?_
    (fun s2 h2 => netIngressFrom_runningImpliesActive T g inp.net 99 1 s2 (le_refl _) h2)
  exact Out.andThen_state (runningImpliesActive T) _ _ hs
    (fun s1 h1 => rptIngress_runningImpliesActive T g s1 inp.rpt h1)

theorem run_runningImpliesActive {τ : Type} (T : TimerOps τ) (hT : T.Lawful) (g : Gateway) :
    ∀ (inputs : List Input) (s : State τ), runningImpliesActive T s →
      runningImpliesActive T (run T g s inputs).state := by
  intro inputs
  induction inputs with
  | nil => intro s hs; exact hs
  | cons inp rest ih =>
    intro s hs
    rw [run]
    exact Out.andThen_state (runningImpliesActive T) _ _
      (iteration_runningImpliesActive T hT g s inp hs) (fun s1 h1 => ih s1 h1)

/-- C18: for a timer that is not running when constructed, is not running
once stopped, and is not started by a tick of the clock, in the state that a
run of the routing loop from startup (current DG-ID 0, timer just
constructed) leaves after any sequence of iterations, if the inactivity timer
is running then the current DG-ID is not 0. -/
theorem C18_running_timer_implies_active {τ : Type} (T : TimerOps τ) (g : Gateway)
    (inputs : List Input) (hT : T.Lawful)
    (hrun : T.isRunning (run T g (startup T) inputs).state.inactivityTimer = true) :
    (run T g (startup T) inputs).state.currentDGId ≠ 0 := by
  have h0 : runningImpliesActive T (startup T) := by
    intro h
    have := hT.1 1000
    simp only [startup] at h
    rw [this] at h
    cases h
  exact run_runningImpliesActive T hT g inputs (startup T) h0 hrun

/-- C18 at the cold switch of the scenarios: after one iteration with a
repeater frame for slot 10 the timer is running and the current DG-ID is
10. -/
theorem C18_running_timer_implies_active_witness :
    cTimer.isRunning (run cTimer sampleGateway (startup cTimer)
      [⟨sampleFrame 0 10, fun _ => noFrame, 1⟩]).state.inactivityTimer = true ∧
    (run cTimer sampleGateway (startup cTimer)
      [⟨sampleFrame 0 10, fun _ => noFrame, 1⟩]).state.currentDGId ≠ 0 :=
  ⟨by decide,
   C18_running_timer_implies_active cTimer sampleGateway
    [⟨sampleFrame 0 10, fun _ => noFrame, 1⟩] cTimer_lawful (by decide)⟩

/-! ## The indices into the slot table -/

theorem Out.andThen_indexedInTable {τ : Type} (o : Out τ) (f : State τ → Out τ)
    (ho : indexedInTable o) (hf : ∀ s, s.currentDGId < 100 → indexedInTable (f s)) :
    indexedInTable (o.andThen f) := by
  unfold Out.andThen
  split
  · exact ho
  · exact hf _ ho.1

theorem switchDGId_indexedInTable {τ : Type} (g : Gateway) (s : State τ) (dgId : Nat)
    (hs : s.currentDGId < 100) (hd : dgId < 100) : indexedInTable (switchDGId g s dgId) := by
  unfold switchDGId
  simp only [hs, hd, if_true]
  split
  · split
    · exact ⟨hd, fun k h => by cases h⟩
    · exact ⟨hs, fun k h => by cases h⟩
  · exact ⟨hs, fun k h => by cases h⟩

theorem forwardRpt_indexedInTable {τ : Type} (T : TimerOps τ) (g : Gateway) (s : State τ)
    (fich : CYSFFICH) (buffer : Buffer) (hs : s.currentDGId < 100) :
    indexedInTable (forwardRpt T g s fich buffer) := by
  unfold forwardRpt
  simp only [hs, if_true]
  split
  · split
    · exact ⟨hs, fun k h => by cases h⟩
    · exact ⟨hs, fun k h => by cases h⟩
  · exact ⟨hs, fun k h => by cases h⟩

theorem rptIngress_indexedInTable {τ : Type} (T : TimerOps τ) (g : Gateway) (s : State τ)
    (rd : ReadResult) (hs : s.currentDGId < 100)
    (hd : ∀ fich, decode rd.buffer = some fich → fich.getDGId < 100) :
    indexedInTable (rptIngress T g s rd) := by
  unfold rptIngress
  split
  · split
    · split
      · rename_i fich hf
        exact Out.andThen_indexedInTable _ _ (switchDGId_indexedInTable g s _ hs (hd fich hf))
          (fun s1 h1 => forwardRpt_indexedInTable T g s1 fich rd.buffer h1)
      · exact ⟨hs, fun k h => by cases h⟩
    · exact ⟨hs, fun k h => by cases h⟩
  · exact ⟨hs, fun k h => by cases h⟩

theorem netIngressFrom_indexedInTable {τ : Type} (T : TimerOps τ) (g : Gateway)
    (read : Nat → ReadResult) (n lo : Nat) (s : State τ) (hlo : lo + n ≤ 100)
    (hs : s.currentDGId < 100) : indexedInTable (netIngressFrom T g read s lo n) := by
  have hlt : (netIngressFrom T g read s lo n).state.currentDGId < 100 := by
    induction n generalizing lo s with
    | zero => exact hs
    | succ n ih =>
      rw [netIngressFrom]
      refine Out.andThen_state (fun s => s.currentDGId < 100) _ _ ?_
        (fun s1 h1 => ih (lo + 1) s1 (by omega) h1)
      unfold netIngressSlot
      split
      · exact hs
      · split
        · split
          · split
            · show (if s.currentDGId = 0 then lo else s.currentDGId) < 100
              by_cases hc : s.currentDGId = 0
              · rw [if_pos hc]; omega
              · rw [if_neg hc]; exact hs
            · exact hs
          · exact hs
        · exact hs
  refine ⟨hlt, ?_⟩
  intro k h
  rw [netIngressFrom_fault] at h
  cases h

theorem inactivity_indexedInTable {τ : Type} (T : TimerOps τ) (g : Gateway) (s : State τ)
    (ms : Nat) (hs : s.currentDGId < 100) : indexedInTable (inactivity T g s ms) := by
  unfold inactivity
  refine Out.andThen_indexedInTable _ _ ⟨hs, fun k h => by cases h⟩ ?_
  intro s1 h1
  unfold expiry
  simp only [h1, if_true]
  split
  · exact ⟨Nat.zero_lt_succ 99, fun k h => by cases h⟩
  · exact ⟨h1, fun k h => by cases h⟩

theorem iteration_indexedInTable {τ : Type} (T : TimerOps τ) (g : Gateway) (s : State τ)
    (inp : Input) (hs : s.currentDGId < 100)
    (hd : ∀ fich, decode inp.rpt.buffer = some fich → fich.getDGId < 100) :
    indexedInTable (iteration T g s inp) := by
  unfold iteration
  refine Out.andThen_indexedInTable _ _ ?_
    (fun s4 h4 => inactivity_indexedInTable T g s4 inp.ms h4)
  refine Out.andThen_indexedInTable _ _ ?_
    (fun s3 h3 => ⟨h3, fun k h => by cases h⟩)
  unfold ingress
  refine Out.andThen_indexedInTable _ _ ?_
    (fun s2 h2 => netIngressFrom_indexedInTable T g inp.net 99 1 s2 (by decide) h2)
  exact Out.andThen_indexedInTable _ _ ⟨hs, fun k h => by cases h⟩
    (fun s1 h1 => rptIngress_indexedInTable T g s1 inp.rpt h1 hd)

/-- A run that starts with a current DG-ID below 100, over iterations in
which every repeater frame with a valid FICH carries a DG-ID below 100, keeps
the current DG-ID below 100 and does not stop on an index outside the
table. -/
theorem run_indexedInTable {τ : Type} (T : TimerOps τ) (g : Gateway) :
    ∀ (inputs : List Input) (s : State τ), s.currentDGId < 100 →
      (∀ inp ∈ inputs, ∀ fich, decode inp.rpt.buffer = some fich → fich.getDGId < 100) →
      indexedInTable (run T g s inputs) := by
  intro inputs
  induction inputs with
  | nil => intro s hs _; exact ⟨hs, fun k h => by cases h⟩
  | cons inp rest ih =>
    intro s hs hd
    rw [run]
    exact Out.andThen_indexedInTable _ _
      (iteration_indexedInTable T g s inp hs (hd inp (by simp)))
      (fun s1 h1 => ih s1 h1 (fun i hi => hd i (by simp [hi])))

/-! ## C16: the tick of the backends -/

theorem count_clockCalls (g : Gateway) (ms p : Nat) :
    ∀ (n lo : Nat),
      (clockCalls g ms lo n).count (Action.clock p ms) = (slotsOf g p lo n).length := by
  intro n
  induction n with
  | zero => intro lo; rfl
  | succ n ih =>
    intro lo
    have ih1 := ih (lo + 1)
    unfold slotsOf at ih1 ⊢
    rw [clockCalls, List.count_append, ih1, List.range'_succ, List.filter_cons]
    cases hq : g.dgIdNetwork lo with
    | none => simp
    | some q =>
      by_cases hqp : q = p
      · subst hqp
        simp [List.count_cons]
        omega
      · have hne : ¬ (Action.clock q ms = Action.clock p ms) := by
          intro h
          injection h with h1 _
          exact hqp h1
        simp [List.count_cons, hne, hqp]

/-- C16, counterexample: the slots 40, 41 and 42 alias the IMRS object 0;
one tick delivers `clock(5)` to that object three times, not at most once. -/
theorem C16_shared_backend_clocked_per_slot_counterexample :
    imrsGateway.dgIdNetwork 40 = some 0 ∧ imrsGateway.dgIdNetwork 41 = some 0 ∧
    imrsGateway.dgIdNetwork 42 = some 0 ∧
    (tick imrsGateway (startup cTimer) 5).calls.count (Action.clock 0 5) = 3 := by
  decide

/-- C16, as amended: the tick step delivers `clock(ms)` once to the repeater
link and once for every bound slot of 1..99, to the object that slot points
to: an object receives as many `clock(ms)` calls as there are slots of 1..99
pointing to it, one call when a single slot points to it, and several when
several slots alias it, as for the shared IMRS backend. -/
theorem C16_clock_once_per_bound_slot {τ : Type} (g : Gateway) (s : State τ) (ms p : Nat) :
    (tick g s ms).calls.count (Action.clock p ms) = (slotsOf g p 1 99).length ∧
    (tick g s ms).calls.count (Action.rptClock ms) = 1 ∧
    (tick g s ms).state = s ∧ (tick g s ms).fault = none := by
  refine ⟨?_, ?_, rfl, rfl⟩
  · simp only [tick, Out.ok]
    rw [List.count_cons, count_clockCalls]
    simp
  · simp only [tick, Out.ok]
    rw [List.count_cons]
    have h0 : (clockCalls g ms 1 99).count (Action.rptClock ms) = 0 := by
      rw [List.count_eq_zero]
      intro h
      obtain ⟨q, hq⟩ := mem_clockCalls g ms _ _ _ h
      cases hq
    simp [h0]

/-! ## C13: unknown flags on the command line -/

/-- C13, counterexample: in the argument list `-v -x` the argument `-x`
starts with `-` and is neither `-v` nor `--version`, yet `main` returns at
`-v` with status 0 and the version line, before it looks at `-x`. -/
theorem C13_unknown_flag_after_version_counterexample :
    startsWithDash "-x" = true ∧ "-x" ≠ "-v" ∧ "-x" ≠ "--version" ∧
    main (fun _ => 0) "/etc/DGIdGateway.ini" ["DGIdGateway", "-v", "-x"] =
      { status := 0, output := [Message.version], gateway := none } := by
  decide

/-- C13, as amended: for every argument list in which the first argument that
starts with `-` is neither `-v` nor `--version`, `main` returns the exit
status 1 after the usage message, without constructing or running the
gateway. -/
theorem C13_first_flag_unknown_gives_usage (gatewayRun : String → Int)
    (DEFAULT_INI_FILE prog : String) (before after : List String) (arg : String)
    (hbefore : ∀ a ∈ before, startsWithDash a = false)
    (hdash : startsWithDash arg = true) (hv : arg ≠ "-v") (hversion : arg ≠ "--version") :
    main gatewayRun DEFAULT_INI_FILE (prog :: (before ++ arg :: after)) =
      { status := 1, output := [Message.usage], gateway := none } := by
  have key : ∀ (l : List String) (ini : String), (∀ a ∈ l, startsWithDash a = false) →
      mainArgs gatewayRun ini (l ++ arg :: after) =
        { status := 1, output := [Message.usage], gateway := none } := by
    intro l
    induction l with
    | nil =>
      intro ini _
      simp [mainArgs, hv, hversion, hdash]
    | cons a l ih =>
      intro ini hl
      have ha : startsWithDash a = false := hl a (by simp)
      have hav : a ≠ "-v" := by
        intro h; rw [h] at ha; revert ha; decide
      have haversion : a ≠ "--version" := by
        intro h; rw [h] at ha; revert ha; decide
      simp only [List.cons_append, mainArgs, hav, haversion, ha, or_self, if_false]
      exact ih a (fun b hb => hl b (by simp [hb]))
  exact key before DEFAULT_INI_FILE hbefore

/-- C13, as amended, at the argument list `conf.ini -x -v`. -/
theorem C13_first_flag_unknown_gives_usage_witness :
    main (fun _ => 0) "/etc/DGIdGateway.ini" ["DGIdGateway", "conf.ini", "-x", "-v"] =
      { status := 1, output := [Message.usage], gateway := none } :=
  C13_first_flag_unknown_gives_usage (fun _ => 0) "/etc/DGIdGateway.ini" "DGIdGateway"
    ["conf.ini"] ["-v"] "-x" (by decide) (by decide) (by decide) (by decide)



/-! ## C12: the shutdown sequence is never reached -/

/-- The three outcomes of lines 228-338: nothing is bound; a new object is
bound, with the mask of the type of the record; the shared IMRS object is
bound, for a record of type IMRS. -/
theorem bindEntry_cases (imrs : Option Nat) (d : Directory) (b : BuildStep) :
    bindEntry imrs d b = d ∨
    (b.data.m_type ≠ "IMRS" ∧ ∃ m, modesOfType b.data.m_type = some m ∧
      bindEntry imrs d b = bindNew d b.data m) ∨
    (∃ q, imrs = some q ∧ b.data.m_type = "IMRS" ∧
      bindEntry imrs d b = bindIMRS d b.data q) := by
  unfold bindEntry
  by_cases h1 : b.data.m_type = "FCS"
  · right; left
    exact ⟨by simp [h1], allModes, by simp [h1, modesOfType]; rfl, by simp [h1]⟩
  by_cases h2 : b.data.m_type = "YSF"
  · cases b.lookupOk
    · left; simp [h2]
    · right; left
      exact ⟨by simp [h2], allModes, by simp [h2, modesOfType]; rfl, by simp [h2]⟩
  by_cases h3 : b.data.m_type = "IMRS"
  · cases hi : imrs with
    | none => left; simp [h3]
    | some q => right; right; exact ⟨q, rfl, h3, by simp [h3]⟩
  by_cases h4 : b.data.m_type = "Parrot"
  · cases b.lookupOk
    · left; simp [h4]
    · right; left
      exact ⟨by simp [h4], allModes, by simp [h4, modesOfType]; rfl, by simp [h4]⟩
  by_cases h5 : b.data.m_type = "YSF2DMR"
  · cases b.lookupOk
    · left; simp [h5]
    · right; left
      exact ⟨by simp [h5], vdModes, by simp [h5, modesOfType]; rfl, by simp [h5]⟩
  by_cases h6 : b.data.m_type = "YSF2NXDN"
  · cases b.lookupOk
    · left; simp [h6]
    · right; left
      exact ⟨by simp [h6], vdModes, by simp [h6, modesOfType]; rfl, by simp [h6]⟩
  by_cases h7 : b.data.m_type = "YSF2P25"
  · cases b.lookupOk
    · left; simp [h7]
    · right; left
      exact ⟨by simp [h7], DT_VOICE_FR_MODE, by simp [h7, modesOfType]; rfl, by simp [h7]⟩
  left
  simp [h1, h2, h3, h4, h5, h6, h7]

/-- A record of type IMRS binds the shared IMRS object when it is there. -/
theorem bindEntry_of_imrs (q : Nat) (d : Directory) (b : BuildStep)
    (ht : b.data.m_type = "IMRS") : bindEntry (some q) d b = bindIMRS d b.data q := by
  simp [bindEntry, ht]

/-- The three outcomes of lines 340-351: nothing is done; `open()` succeeds;
`open()` fails and the entry is set to NULL. -/
theorem openAndLink_cases (imrs : Option Nat) (d : Directory) (b : BuildStep) :
    ((d.dgIdNetwork b.data.m_dgId = none ∨ d.dgIdNetwork b.data.m_dgId = imrs) ∧
      openAndLink imrs d b = d) ∨
    (∃ p, d.dgIdNetwork b.data.m_dgId = some p ∧ some p ≠ imrs ∧ b.openOk = true ∧
      openAndLink imrs d b =
        { d with calls := d.calls ++ [Action.netOpen p] ++
            (if (d.net p).m_static then [Action.link p, Action.link p, Action.link p]
             else []) }) ∨
    (∃ p, d.dgIdNetwork b.data.m_dgId = some p ∧ some p ≠ imrs ∧ b.openOk = false ∧
      openAndLink imrs d b =
        { d with
          dgIdNetwork := fun i => if i = b.data.m_dgId then none else d.dgIdNetwork i
          calls := d.calls ++ [Action.netOpen p] }) := by
  unfold openAndLink
  cases hp : d.dgIdNetwork b.data.m_dgId with
  | none => left; exact ⟨Or.inl rfl, rfl⟩
  | some p =>
    by_cases hi : some p ≠ imrs
    · cases ho : b.openOk
      · right; right
        exact ⟨p, rfl, hi, rfl, by simp [hi]⟩
      · right; left
        exact ⟨p, rfl, hi, rfl, by simp [hi]⟩
    · left
      refine ⟨Or.inr (not_not.1 hi), ?_⟩
      simp [hi]

theorem bindEntry_next_le (imrs : Option Nat) (d : Directory) (b : BuildStep) :
    d.next ≤ (bindEntry imrs d b).next := by
  rcases bindEntry_cases imrs d b with h | ⟨_, m, _, h⟩ | ⟨q, _, _, h⟩ <;> rw [h] <;>
    simp [bindNew, bindIMRS]

theorem openAndLink_next (imrs : Option Nat) (d : Directory) (b : BuildStep) :
    (openAndLink imrs d b).next = d.next := by
  rcases openAndLink_cases imrs d b with ⟨_, h⟩ | ⟨p, _, _, _, h⟩ | ⟨p, _, _, _, h⟩ <;> rw [h]

theorem openAndLink_net (imrs : Option Nat) (d : Directory) (b : BuildStep) :
    (openAndLink imrs d b).net = d.net := by
  rcases openAndLink_cases imrs d b with ⟨_, h⟩ | ⟨p, _, _, _, h⟩ | ⟨p, _, _, _, h⟩ <;> rw [h]

theorem openAndLink_fault (imrs : Option Nat) (d : Directory) (b : BuildStep) :
    (openAndLink imrs d b).fault = d.fault := by
  rcases openAndLink_cases imrs d b with ⟨_, h⟩ | ⟨p, _, _, _, h⟩ | ⟨p, _, _, _, h⟩ <;> rw [h]

theorem bindEntry_fault (imrs : Option Nat) (d : Directory) (b : BuildStep) :
    (bindEntry imrs d b).fault = d.fault := by
  rcases bindEntry_cases imrs d b with h | ⟨_, m, _, h⟩ | ⟨q, _, _, h⟩ <;> rw [h] <;> rfl

theorem buildStep_next_le (imrs : Option Nat) (d : Directory) (b : BuildStep) :
    d.next ≤ (buildStep imrs d b).next := by
  unfold buildStep
  rw [openAndLink_next]
  exact bindEntry_next_le imrs d b

/-- A build over records whose DG-IDs are all below 100 does not stop. -/
theorem buildFrom_fault (imrs : Option Nat) :
    ∀ (config : List BuildStep) (d : Directory),
      (∀ b ∈ config, b.data.m_dgId < 100) →
      (buildFrom imrs d config).fault = d.fault := by
  intro config
  induction config with
  | nil => intro d _; rfl
  | cons b rest ih =>
    intro d h
    rw [buildFrom, if_pos (h b (by simp)), ih _ (fun c hc => h c (by simp [hc]))]
    unfold buildStep
    rw [openAndLink_fault, bindEntry_fault]

/-- A pass leaves a slot as it was or sets it to NULL, except the slot of its
record, which it may bind. -/
theorem openAndLink_table (imrs : Option Nat) (d : Directory) (b : BuildStep) (i : Nat) :
    (openAndLink imrs d b).dgIdNetwork i = d.dgIdNetwork i ∨
    (i = b.data.m_dgId ∧ (openAndLink imrs d b).dgIdNetwork i = none) := by
  rcases openAndLink_cases imrs d b with ⟨_, h⟩ | ⟨p, _, _, _, h⟩ | ⟨p, _, _, _, h⟩
  · left; rw [h]
  · left; rw [h]
  · rw [h]
    by_cases hi : i = b.data.m_dgId
    · right; exact ⟨hi, by simp [hi]⟩
    · left; simp [hi]

/-! ## C20: the shared IMRS record -/

/-- The attributes of the shared IMRS object after one pass: those that a
record of type IMRS sets, unchanged for any other record. -/
theorem buildStep_net_imrs (q : Nat) (d : Directory) (b : BuildStep) (hq : q < d.next) :
    (buildStep (some q) d b).net q =
      if b.data.m_type = "IMRS" then
        ⟨allModes, true, b.data.m_rfHangTime, b.data.m_netHangTime⟩
      else d.net q := by
  have hne : q ≠ d.next := by omega
  unfold buildStep
  rw [openAndLink_net]
  by_cases ht : b.data.m_type = "IMRS"
  · rw [bindEntry_of_imrs q d b ht]
    simp [ht, bindIMRS]
  · rcases bindEntry_cases (some q) d b with h | ⟨_, m, _, h⟩ | ⟨r, _, h3, _⟩
    · rw [h]; simp [ht]
    · rw [h]; simp [ht, bindNew, hne]
    · exact absurd h3 ht

/-- A slot that points to the shared IMRS object after a pass pointed to it
before the pass, or the pass is for a record of type IMRS. -/
theorem buildStep_table_imrs (q : Nat) (d : Directory) (b : BuildStep) (hq : q < d.next)
    (i : Nat) (h : (buildStep (some q) d b).dgIdNetwork i = some q) :
    d.dgIdNetwork i = some q ∨ b.data.m_type = "IMRS" := by
  have hne : d.next ≠ q := by omega
  unfold buildStep at h
  have h1 : (bindEntry (some q) d b).dgIdNetwork i = some q := by
    rcases openAndLink_table (some q) (bindEntry (some q) d b) b i with h2 | ⟨_, h2⟩
    · rw [← h2]; exact h
    · rw [h2] at h; cases h
  rcases bindEntry_cases (some q) d b with h2 | ⟨_, m, _, h2⟩ | ⟨r, _, h3, _⟩
  · rw [h2] at h1; exact Or.inl h1
  · rw [h2] at h1
    simp only [bindNew] at h1
    split at h1
    · injection h1 with h1
      exact absurd h1 hne
    · exact Or.inl h1
  · exact Or.inr h3

theorem lastIMRS_append_singleton (steps : List BuildStep) (b : BuildStep) :
    lastIMRS (steps ++ [b]) =
      if b.data.m_type = "IMRS" then some b.data else lastIMRS steps := by
  unfold lastIMRS
  by_cases ht : b.data.m_type = "IMRS"
  · simp [List.filter_append, ht, List.filter]
  · simp [List.filter_append, ht, List.filter]

/-- The shared IMRS object through a build: it keeps the attributes set by
the last record of type IMRS processed, and a slot points to it only when
such a record was processed. -/
theorem buildFrom_imrs (q : Nat) :
    ∀ (rest done : List BuildStep) (d : Directory),
      q < d.next →
      (∀ b ∈ rest, b.data.m_dgId < 100) →
      (∀ i, d.dgIdNetwork i = some q → lastIMRS done ≠ none) →
      (∀ e, lastIMRS done = some e →
        d.net q = ⟨allModes, true, e.m_rfHangTime, e.m_netHangTime⟩) →
      (∀ i, (buildFrom (some q) d rest).dgIdNetwork i = some q →
        lastIMRS (done ++ rest) ≠ none) ∧
      (∀ e, lastIMRS (done ++ rest) = some e →
        (buildFrom (some q) d rest).net q =
          ⟨allModes, true, e.m_rfHangTime, e.m_netHangTime⟩) := by
  intro rest
  induction rest with
  | nil =>
    intro done d _ _ h1 h2
    simp only [List.append_nil, buildFrom]
    exact ⟨h1, h2⟩
  | cons b rest ih =>
    intro done d hq hlt h1 h2
    have e : done ++ b :: rest = (done ++ [b]) ++ rest := by simp
    rw [buildFrom, if_pos (hlt b (by simp)), e]
    apply ih (done ++ [b]) (buildStep (some q) d b)
      (lt_of_lt_of_le hq (buildStep_next_le _ d b)) (fun c hc => hlt c (by simp [hc]))
    · intro i hi
      rw [lastIMRS_append_singleton]
      rcases buildStep_table_imrs q d b hq i hi with h | h
      · by_cases ht : b.data.m_type = "IMRS"
        · simp [ht]
        · simp only [ht, if_false]; exact h1 i h
      · simp [h]
    · intro e0 he0
      rw [lastIMRS_append_singleton] at he0
      rw [buildStep_net_imrs q d b hq]
      by_cases ht : b.data.m_type = "IMRS"
      · simp only [ht, if_true] at he0 ⊢
        injection he0 with he0
        rw [he0]
      · simp only [ht, if_false] at he0 ⊢
        exact h2 e0 he0

/-- C20: after the directory build for a configuration list whose DG-IDs are
indices of the table, with the IMRS backend opened, every slot that points to
the shared IMRS object reports one and the same record: there is a last
record of type IMRS in the list, and the slot reports all four modes, static
= true whatever static flag was configured, and the RF and network hang times
of that last record, not those of the record of the slot. -/
theorem C20_imrs_slots_share_last_record (net0 : Nat → CDGIdNetwork)
    (config : List BuildStep) (i : Nat)
    (hdgid : ∀ b ∈ config, b.data.m_dgId < 100)
    (hi : (build true net0 config).dgIdNetwork i = some 0) :
    ∃ e, lastIMRS config = some e ∧
      (build true net0 config).net 0 =
        ⟨allModes, true, e.m_rfHangTime, e.m_netHangTime⟩ := by
  have h := buildFrom_imrs 0 config [] (emptyDirectory net0) (Nat.zero_lt_succ 0) hdgid
    (fun j hj => by simp [emptyDirectory] at hj)
    (fun e he => by simp [lastIMRS] at he)
  simp only [List.nil_append] at h
  have hb : build true net0 config = buildFrom (some 0) (emptyDirectory net0) config := rfl
  rw [hb] at hi ⊢
  cases hl : lastIMRS config with
  | none => exact absurd hl (h.1 i hi)
  | some e => exact ⟨e, rfl, h.2 e hl⟩

/-- C20 at the sample configuration: the slots 40 and 41 are of type IMRS
with the hang times 7, 8 and 9, 11 and static = false configured; slot 40
reports static = true and the hang times 9, 11 of the record of slot 41. -/
theorem C20_imrs_slots_share_last_record_witness :
    (build true sampleNet0 sampleConfig).dgIdNetwork 40 = some 0 ∧
    ∃ e, lastIMRS sampleConfig = some e ∧
      (build true sampleNet0 sampleConfig).net 0 =
        ⟨allModes, true, e.m_rfHangTime, e.m_netHangTime⟩ :=
  ⟨by decide,
   C20_imrs_slots_share_last_record sampleNet0 sampleConfig 40 (by decide) (by decide)⟩

/-! ## C11: the link calls of the directory build -/

/-- The four outcomes of a pass on a record whose slot is NULL before the
pass. -/
theorem buildStep_cases (imrs : Option Nat) (d : Directory) (b : BuildStep)
    (hf : d.Fresh imrs) (hk : d.dgIdNetwork b.data.m_dgId = none) :
    buildStep imrs d b = d ∨
    (b.data.m_type ≠ "IMRS" ∧ b.openOk = true ∧ ∃ m, modesOfType b.data.m_type = some m ∧
      buildStep imrs d b =
        { dgIdNetwork := fun i => if i = b.data.m_dgId then some d.next else d.dgIdNetwork i
          net := fun p =>
            if p = d.next then
              ⟨m, b.data.m_static, b.data.m_rfHangTime, b.data.m_netHangTime⟩
            else d.net p
          next := d.next + 1
          calls := d.calls ++ [Action.netOpen d.next] ++
            (if b.data.m_static then
              [Action.link d.next, Action.link d.next, Action.link d.next]
             else [])
          fault := d.fault }) ∨
    (b.data.m_type ≠ "IMRS" ∧ b.openOk = false ∧ ∃ m,
      buildStep imrs d b =
        { dgIdNetwork := d.dgIdNetwork
          net := fun p =>
            if p = d.next then
              ⟨m, b.data.m_static, b.data.m_rfHangTime, b.data.m_netHangTime⟩
            else d.net p
          next := d.next + 1
          calls := d.calls ++ [Action.netOpen d.next]
          fault := d.fault }) ∨
    (∃ q, imrs = some q ∧ b.data.m_type = "IMRS" ∧
      buildStep imrs d b = bindIMRS d b.data q) := by
  unfold buildStep
  rcases bindEntry_cases imrs d b with h | ⟨ht, m, hm, h⟩ | ⟨q, hq, ht, h⟩
  · left
    rw [h]
    rcases openAndLink_cases imrs d b with ⟨_, h1⟩ | ⟨p, hp, _⟩ | ⟨p, hp, _⟩
    · exact h1
    · rw [hk] at hp; cases hp
    · rw [hk] at hp; cases hp
  · have hslot : (bindNew d b.data m).dgIdNetwork b.data.m_dgId = some d.next := by
      simp [bindNew]
    have hni : some d.next ≠ imrs := by
      intro hc
      have := hf.2.1 d.next hc.symm
      omega
    rw [h]
    rcases openAndLink_cases imrs (bindNew d b.data m) b with
      ⟨h0, _⟩ | ⟨p, hp, _, ho, h1⟩ | ⟨p, hp, _, ho, h1⟩
    · rw [hslot] at h0
      rcases h0 with h0 | h0
      · cases h0
      · exact absurd h0 hni
    · right; left
      rw [hslot] at hp
      injection hp with hp
      subst hp
      refine ⟨ht, ho, m, hm, ?_⟩
      rw [h1]
      simp [bindNew]
    · right; right; left
      rw [hslot] at hp
      injection hp with hp
      subst hp
      refine ⟨ht, ho, m, ?_⟩
      rw [h1]
      simp only [bindNew, Directory.mk.injEq, and_true, true_and]
      funext i
      by_cases hi : i = b.data.m_dgId
      · simp [hi, hk]
      · simp [hi]
  · right; right; right
    refine ⟨q, hq, ht, ?_⟩
    rw [h]
    have hslot : (bindIMRS d b.data q).dgIdNetwork b.data.m_dgId = imrs := by
      simp [bindIMRS, hq]
    rcases openAndLink_cases imrs (bindIMRS d b.data q) b with
      ⟨_, h1⟩ | ⟨p, hp, hne, _⟩ | ⟨p, hp, hne, _⟩
    · exact h1
    · rw [hslot] at hp; exact absurd hp.symm hne
    · rw [hslot] at hp; exact absurd hp.symm hne

/-- A pass does not touch the slots of the other DG-IDs. -/
theorem buildStep_table_other (imrs : Option Nat) (d : Directory) (b : BuildStep) (i : Nat)
    (hi : i ≠ b.data.m_dgId) :
    (buildStep imrs d b).dgIdNetwork i = d.dgIdNetwork i := by
  unfold buildStep
  have h1 : (bindEntry imrs d b).dgIdNetwork i = d.dgIdNetwork i := by
    rcases bindEntry_cases imrs d b with h | ⟨_, m, _, h⟩ | ⟨q, _, _, h⟩ <;> rw [h] <;>
      simp [bindNew, bindIMRS, hi]
  rcases openAndLink_table imrs (bindEntry imrs d b) b i with h | ⟨h, _⟩
  · rw [h, h1]
  · exact absurd h hi

/-- A pass keeps the objects fresh. -/
theorem buildStep_fresh (imrs : Option Nat) (d : Directory) (b : BuildStep)
    (hf : d.Fresh imrs) : (buildStep imrs d b).Fresh imrs := by
  obtain ⟨f1, f2, f3⟩ := hf
  have hbind : (bindEntry imrs d b).Fresh imrs := by
    rcases bindEntry_cases imrs d b with h | ⟨_, m, _, h⟩ | ⟨q, hq, _, h⟩
    · rw [h]; exact ⟨f1, f2, f3⟩
    · rw [h]
      refine ⟨?_, ?_, ?_⟩
      · intro i p hp
        simp only [bindNew] at hp ⊢
        split at hp
        · injection hp with hp; omega
        · have := f1 i p hp; omega
      · intro p hp
        have := f2 p hp
        simp only [bindNew]; omega
      · intro i j p hi hj hne
        simp only [bindNew] at hi hj
        split at hi
        · rename_i hik
          injection hi with hi
          split at hj
          · rename_i hjk
            rw [hik, hjk]
          · have := f1 j p hj; omega
        · split at hj
          · injection hj with hj
            have := f1 i p hi; omega
          · exact f3 i j p hi hj hne
    · rw [h]
      refine ⟨?_, f2, ?_⟩
      · intro i p hp
        simp only [bindIMRS] at hp ⊢
        split at hp
        · injection hp with hp
          rw [← hp]; exact f2 q hq
        · exact f1 i p hp
      · intro i j p hi hj hne
        simp only [bindIMRS] at hi hj
        split at hi
        · injection hi with hi
          exact absurd (by rw [hq, hi]) hne
        · split at hj
          · injection hj with hj
            exact absurd (by rw [hq, hj]) hne
          · exact f3 i j p hi hj hne
  obtain ⟨g1, g2, g3⟩ := hbind
  unfold buildStep
  have htab : ∀ i p, (openAndLink imrs (bindEntry imrs d b) b).dgIdNetwork i = some p →
      (bindEntry imrs d b).dgIdNetwork i = some p := by
    intro i p hp
    rcases openAndLink_table imrs (bindEntry imrs d b) b i with h | ⟨_, h⟩
    · rw [← h]; exact hp
    · rw [h] at hp; cases hp
  refine ⟨?_, ?_, ?_⟩
  · intro i p hp
    rw [openAndLink_next]
    exact g1 i p (htab i p hp)
  · intro p hp
    rw [openAndLink_next]
    exact g2 p hp
  · intro i j p hi hj hne
    exact g3 i j p (htab i p hi) (htab j p hj) hne

/-- A pass on a record whose slot is NULL before it keeps the account of the
link calls. -/
theorem buildStep_linked (imrs : Option Nat) (d : Directory) (b : BuildStep)
    (hf : d.Fresh imrs) (hl : d.Linked imrs) (hk : d.dgIdNetwork b.data.m_dgId = none) :
    (buildStep imrs d b).Linked imrs := by
  obtain ⟨f1, f2, _⟩ := hf
  obtain ⟨l1, l2⟩ := hl
  have hnolink : Action.link d.next ∉ d.calls := by
    intro h
    obtain ⟨_, _, i, hi⟩ := l1 _ h
    have := f1 i _ hi
    omega
  rcases buildStep_cases imrs d b ⟨f1, f2, ‹_›⟩ hk with
    h | ⟨_, _, m, _, h⟩ | ⟨_, _, m, h⟩ | ⟨q, hq, _, h⟩
  · rw [h]; exact ⟨l1, l2⟩
  · rw [h]
    refine ⟨?_, ?_⟩
    · intro p hp
      simp only [List.mem_append, List.mem_singleton] at hp
      rcases hp with (hp | hp) | hp
      · obtain ⟨h1, h2, i, hi⟩ := l1 p hp
        have hpn : p ≠ d.next := by have := f1 i p hi; omega
        have hik : i ≠ b.data.m_dgId := by
          intro hc; rw [hc, hk] at hi; cases hi
        exact ⟨h1, by simp [hpn, h2], i, by simp [hik, hi]⟩
      · cases hp
      · by_cases hs : b.data.m_static = true
        · simp only [hs, if_true, List.mem_cons, List.mem_singleton, List.not_mem_nil,
            or_false, or_self] at hp
          injection hp with hp
          subst hp
          refine ⟨?_, by simp [hs], b.data.m_dgId, by simp⟩
          intro hc
          have := f2 d.next hc.symm
          omega
        · simp [hs] at hp
    · intro i p hp hne hs
      simp only at hp hs
      by_cases hik : i = b.data.m_dgId
      · simp only [hik, if_true] at hp
        injection hp with hp
        subst hp
        simp only [if_true] at hs
        simp [hs, List.count_append, List.count_cons, List.count_eq_zero_of_not_mem hnolink]
      · simp only [hik, if_false] at hp
        have hpn : p ≠ d.next := by have := f1 i p hp; omega
        simp only [hpn, if_false] at hs
        have hc := l2 i p hp hne hs
        have hne2 : ¬ (Action.link d.next = Action.link p) := by
          intro hc2; injection hc2 with hc2; exact hpn hc2.symm
        by_cases hst : b.data.m_static = true
        · simp [hst, List.count_append, List.count_cons, hc, hne2]
        · simp [hst, List.count_append, List.count_cons, hc]
  · rw [h]
    refine ⟨?_, ?_⟩
    · intro p hp
      simp only [List.mem_append, List.mem_singleton] at hp
      rcases hp with hp | hp
      · obtain ⟨h1, h2, i, hi⟩ := l1 p hp
        have hpn : p ≠ d.next := by have := f1 i p hi; omega
        exact ⟨h1, by simp [hpn, h2], i, hi⟩
      · cases hp
    · intro i p hp hne hs
      simp only at hp hs
      have hpn : p ≠ d.next := by have := f1 i p hp; omega
      simp only [hpn, if_false] at hs
      have hc := l2 i p hp hne hs
      simp [List.count_append, List.count_cons, hc]
  · rw [h]
    refine ⟨?_, ?_⟩
    · intro p hp
      simp only [bindIMRS, List.mem_append, List.mem_singleton] at hp ⊢
      rcases hp with hp | hp
      · obtain ⟨h1, h2, i, hi⟩ := l1 p hp
        have hpq : p ≠ q := by
          intro hc; exact h1 (by rw [hq, hc])
        have hik : i ≠ b.data.m_dgId := by
          intro hc; rw [hc, hk] at hi; cases hi
        exact ⟨h1, by simp [hpq, h2], i, by simp [hik, hi]⟩
      · cases hp
    · intro i p hp hne hs
      simp only [bindIMRS] at hp hs ⊢
      have hpq : p ≠ q := by
        intro hc; exact hne (by rw [hq, hc])
      by_cases hik : i = b.data.m_dgId
      · simp only [hik, if_true] at hp
        injection hp with hp
        exact absurd hp.symm hpq
      · simp only [hik, if_false] at hp
        simp only [hpq, if_false] at hs
        have hc := l2 i p hp hne hs
        simp [List.count_append, List.count_cons, hc]

/-- A build does not touch the slots of the DG-IDs that are not in its
list. -/
theorem buildFrom_table_other (imrs : Option Nat) (i : Nat) :
    ∀ (rest : List BuildStep) (d : Directory),
      (∀ b ∈ rest, b.data.m_dgId < 100) → (∀ b ∈ rest, b.data.m_dgId ≠ i) →
      (buildFrom imrs d rest).dgIdNetwork i = d.dgIdNetwork i := by
  intro rest
  induction rest with
  | nil => intro d _ _; rfl
  | cons b rest ih =>
    intro d hlt hne
    rw [buildFrom, if_pos (hlt b (by simp)),
      ih _ (fun c hc => hlt c (by simp [hc])) (fun c hc => hne c (by simp [hc])),
      buildStep_table_other imrs d b i (fun h => hne b (by simp) h.symm)]

/-- The account of the link calls through a build over records with pairwise
distinct DG-IDs whose slots are NULL at the start. -/
theorem buildFrom_linked (imrs : Option Nat) :
    ∀ (rest : List BuildStep) (d : Directory),
      d.Fresh imrs → d.Linked imrs → keyedByDGId rest →
      (∀ b ∈ rest, d.dgIdNetwork b.data.m_dgId = none) →
      (buildFrom imrs d rest).Fresh imrs ∧ (buildFrom imrs d rest).Linked imrs := by
  intro rest
  induction rest with
  | nil => intro d hf hl _ _; exact ⟨hf, hl⟩
  | cons b rest ih =>
    intro d hf hl hkey hnone
    obtain ⟨hpw, hlt⟩ := hkey
    rw [List.pairwise_cons] at hpw
    rw [buildFrom, if_pos (hlt b (by simp))]
    apply ih _ (buildStep_fresh imrs d b hf)
      (buildStep_linked imrs d b hf hl (hnone b (by simp)))
      ⟨hpw.2, fun c hc => hlt c (by simp [hc])⟩
    intro c hc
    rw [buildStep_table_other imrs d b _ (fun h => hpw.1 c hc h.symm)]
    exact hnone c (by simp [hc])

/-- The slot of a record whose `open()` failed is left NULL by a build over
records with pairwise distinct DG-IDs whose slots are NULL at the start. -/
theorem buildFrom_open_failed (imrs : Option Nat) :
    ∀ (rest : List BuildStep) (d : Directory),
      d.Fresh imrs → keyedByDGId rest →
      (∀ b ∈ rest, d.dgIdNetwork b.data.m_dgId = none) →
      ∀ b ∈ rest, b.data.m_type ≠ "IMRS" → b.openOk = false →
        (buildFrom imrs d rest).dgIdNetwork b.data.m_dgId = none := by
  intro rest
  induction rest with
  | nil => intro d _ _ _ b hb; cases hb
  | cons b0 rest ih =>
    intro d hf hkey hnone b hb ht ho
    obtain ⟨hpw, hlt⟩ := hkey
    rw [List.pairwise_cons] at hpw
    rw [buildFrom, if_pos (hlt b0 (by simp))]
    rcases List.mem_cons.1 hb with hb0 | hbr
    · subst hb0
      rw [buildFrom_table_other imrs _ rest _ (fun c hc => hlt c (by simp [hc]))
        (fun c hc h => hpw.1 c hc h.symm)]
      rcases buildStep_cases imrs d b hf (hnone b (by simp)) with
        h | ⟨_, ho1, _⟩ | ⟨_, _, m, h⟩ | ⟨q, _, ht1, _⟩
      · rw [h]; exact hnone b (by simp)
      · rw [ho] at ho1; cases ho1
      · rw [h]; exact hnone b (by simp)
      · exact absurd ht1 ht
    · apply ih _ (buildStep_fresh imrs d b0 hf) ⟨hpw.2, fun c hc => hlt c (by simp [hc])⟩ _
        b hbr ht ho
      intro c hc
      rw [buildStep_table_other imrs d b0 _ (fun h => hpw.1 c hc h.symm)]
      exact hnone c (by simp [hc])

theorem emptyDirectory_fresh (imrsOpened : Bool) (net0 : Nat → CDGIdNetwork) :
    (emptyDirectory net0).Fresh (imrsPointer imrsOpened) := by
  refine ⟨?_, ?_, ?_⟩
  · intro i p h; cases h
  · intro p h
    cases imrsOpened
    · cases h
    · simp only [imrsPointer, if_true] at h
      injection h with h
      simp [emptyDirectory, ← h]
  · intro i j p h; cases h

theorem emptyDirectory_linked (imrs : Option Nat) (net0 : Nat → CDGIdNetwork) :
    (emptyDirectory net0).Linked imrs := by
  refine ⟨?_, ?_⟩
  · intro p h; cases h
  · intro i p h; cases h

/-- The table that a build leaves has no object other than the IMRS object
under two slots, whatever the configuration list. -/
theorem build_fresh (imrsOpened : Bool) (net0 : Nat → CDGIdNetwork) :
    ∀ (config : List BuildStep),
      (build imrsOpened net0 config).Fresh (imrsPointer imrsOpened) := by
  have key : ∀ (rest : List BuildStep) (d : Directory),
      d.Fresh (imrsPointer imrsOpened) →
      (buildFrom (imrsPointer imrsOpened) d rest).Fresh (imrsPointer imrsOpened) := by
    intro rest
    induction rest with
    | nil => intro d hf; exact hf
    | cons b rest ih =>
      intro d hf
      rw [buildFrom]
      split
      · exact ih _ (buildStep_fresh _ d b hf)
      · exact hf
  intro config
  exact key config _ (emptyDirectory_fresh imrsOpened net0)

/-- C11, counterexample: the slots 40 and 41 of the sample configuration are
of type IMRS; after the build slot 40 holds a binding that reports static =
true, the IMRS backend was opened, and no link call at all was issued on that
binding, because line 340 leaves the shared IMRS object out.  And for a
list with the DG-ID 10 twice, a static YSF record followed by a YSF record
whose reflector is not found, lines 340-350 run twice on the object of slot
10, which gets six link calls. -/
theorem C11_static_imrs_slot_gets_no_link_counterexample :
    (build true sampleNet0 sampleConfig).dgIdNetwork 40 = some 0 ∧
    ((build true sampleNet0 sampleConfig).net 0).m_static = true ∧
    (build true sampleNet0 sampleConfig).calls.count (Action.link 0) = 0 ∧
    (build true sampleNet0
      [⟨⟨10, "YSF", true, 2, 3⟩, true, true⟩,
       ⟨⟨10, "YSF", true, 2, 3⟩, false, true⟩]).dgIdNetwork 10 = some 1 ∧
    (build true sampleNet0
      [⟨⟨10, "YSF", true, 2, 3⟩, true, true⟩,
       ⟨⟨10, "YSF", true, 2, 3⟩, false, true⟩]).calls.count (Action.link 1) = 6 := by
  decide

/-- C11, as amended: for a configuration list whose records have pairwise
distinct DG-IDs, all below 100, the directory build completes, and after it:
every slot that holds a static binding other than the shared IMRS object has
had exactly three link calls issued on that binding; every link call of the
build is on such a binding, so none is on a non-static binding and none on
the shared IMRS object; and the slot of a record of a type other than IMRS
whose `open()` failed is left empty. -/
theorem C11_static_bindings_get_three_links (imrsOpened : Bool) (net0 : Nat → CDGIdNetwork)
    (config : List BuildStep) (hkey : keyedByDGId config) :
    (build imrsOpened net0 config).fault = none ∧
    (∀ i p, (build imrsOpened net0 config).dgIdNetwork i = some p →
      some p ≠ imrsPointer imrsOpened →
      ((build imrsOpened net0 config).net p).m_static = true →
      (build imrsOpened net0 config).calls.count (Action.link p) = 3) ∧
    (∀ p, Action.link p ∈ (build imrsOpened net0 config).calls →
      some p ≠ imrsPointer imrsOpened ∧
      ((build imrsOpened net0 config).net p).m_static = true ∧
      ∃ i, (build imrsOpened net0 config).dgIdNetwork i = some p) ∧
    (∀ b ∈ config, b.data.m_type ≠ "IMRS" → b.openOk = false →
      (build imrsOpened net0 config).dgIdNetwork b.data.m_dgId = none) := by
  have hnone : ∀ b ∈ config, (emptyDirectory net0).dgIdNetwork b.data.m_dgId = none :=
    fun _ _ => rfl
  have h := buildFrom_linked (imrsPointer imrsOpened) config (emptyDirectory net0)
    (emptyDirectory_fresh imrsOpened net0) (emptyDirectory_linked _ net0) hkey hnone
  refine ⟨?_, h.2.2, h.2.1, ?_⟩
  · exact buildFrom_fault _ config _ hkey.2
  · exact buildFrom_open_failed (imrsPointer imrsOpened) config (emptyDirectory net0)
      (emptyDirectory_fresh imrsOpened net0) hkey hnone

theorem sampleConfig_keyed : keyedByDGId sampleConfig := by
  refine ⟨?_, ?_⟩
  · simp [sampleConfig]
  · intro b hb
    simp only [sampleConfig, List.mem_cons, List.mem_singleton, List.not_mem_nil,
      or_false] at hb
    rcases hb with h | h | h | h | h | h <;> subst h <;> decide

/-- C11, as amended, at the sample configuration: the static YSF reflector of
slot 5, the object 1, gets three link calls, and the slot 50 of the static
FCS reflector whose `open()` failed is empty. -/
theorem C11_static_bindings_get_three_links_witness :
    (build true sampleNet0 sampleConfig).calls.count (Action.link 1) = 3 ∧
    (build true sampleNet0 sampleConfig).dgIdNetwork 50 = none :=
  ⟨(C11_static_bindings_get_three_links true sampleNet0 sampleConfig
      sampleConfig_keyed).2.1 5 1 (by decide) (by decide) (by decide),
   by decide⟩

/-! ## C14: the allowed-modes mask of a binding -/

/-- A pass leaves the attributes of the objects created before it, other than
the shared IMRS object, as they were. -/
theorem buildStep_net_other (imrs : Option Nat) (d : Directory) (b : BuildStep) (p : Nat)
    (hp : p < d.next) (hne : some p ≠ imrs) : (buildStep imrs d b).net p = d.net p := by
  have hpn : p ≠ d.next := by omega
  unfold buildStep
  rw [openAndLink_net]
  rcases bindEntry_cases imrs d b with h | ⟨_, m, _, h⟩ | ⟨q, hq, _, h⟩
  · rw [h]
  · rw [h]; simp [bindNew, hpn]
  · rw [h]
    have hpq : p ≠ q := by
      intro hc; exact hne (by rw [hq, hc])
    simp [bindIMRS, hpq]

theorem buildFrom_net_other (imrs : Option Nat) (p : Nat) (hne : some p ≠ imrs) :
    ∀ (rest : List BuildStep) (d : Directory), p < d.next →
      (∀ b ∈ rest, b.data.m_dgId < 100) →
      (buildFrom imrs d rest).net p = d.net p := by
  intro rest
  induction rest with
  | nil => intro d _ _; rfl
  | cons b rest ih =>
    intro d hp hlt
    rw [buildFrom, if_pos (hlt b (by simp)),
      ih _ (lt_of_lt_of_le hp (buildStep_next_le imrs d b)) (fun c hc => hlt c (by simp [hc])),
      buildStep_net_other imrs d b p hp hne]

/-- The mask of the shared IMRS object, once it holds all four modes, keeps
them through a build. -/
theorem buildFrom_imrs_modes (q : Nat) :
    ∀ (rest : List BuildStep) (d : Directory), q < d.next →
      (∀ b ∈ rest, b.data.m_dgId < 100) → (d.net q).m_modes = allModes →
      ((buildFrom (some q) d rest).net q).m_modes = allModes := by
  intro rest
  induction rest with
  | nil => intro d _ _ h; exact h
  | cons b rest ih =>
    intro d hq hlt hm
    rw [buildFrom, if_pos (hlt b (by simp))]
    apply ih _ (lt_of_lt_of_le hq (buildStep_next_le _ d b)) (fun c hc => hlt c (by simp [hc]))
    rw [buildStep_net_imrs q d b hq]
    split
    · rfl
    · exact hm

/-- The mask of the binding of a record through a build over records with
pairwise distinct DG-IDs whose slots are NULL at the start. -/
theorem buildFrom_modes (imrs : Option Nat) :
    ∀ (rest : List BuildStep) (d : Directory),
      d.Fresh imrs → keyedByDGId rest →
      (∀ b ∈ rest, d.dgIdNetwork b.data.m_dgId = none) →
      ∀ b ∈ rest, ∀ p, (buildFrom imrs d rest).dgIdNetwork b.data.m_dgId = some p →
        modesOfType b.data.m_type = some ((buildFrom imrs d rest).net p).m_modes := by
  intro rest
  induction rest with
  | nil => intro d _ _ _ b hb; cases hb
  | cons b0 rest ih =>
    intro d hf hkey hnone b hb p hp
    obtain ⟨hpw, hlt⟩ := hkey
    rw [List.pairwise_cons] at hpw
    have hlt' : ∀ c ∈ rest, c.data.m_dgId < 100 := fun c hc => hlt c (by simp [hc])
    rw [buildFrom, if_pos (hlt b0 (by simp))] at hp ⊢
    rcases List.mem_cons.1 hb with hb0 | hbr
    · subst hb0
      rw [buildFrom_table_other imrs _ rest _ hlt' (fun c hc h => hpw.1 c hc h.symm)] at hp
      rcases buildStep_cases imrs d b hf (hnone b (by simp)) with
        h | ⟨_, _, m, hm, h⟩ | ⟨_, _, m, h⟩ | ⟨q, hq, ht, h⟩
      · rw [h, hnone b (by simp)] at hp; cases hp
      · have hpd : p = d.next := by
          rw [h] at hp
          simp only [if_true] at hp
          injection hp with hp
          exact hp.symm
        have hni : some d.next ≠ imrs := by
          intro hc
          have := hf.2.1 d.next hc.symm
          omega
        subst hpd
        rw [buildFrom_net_other imrs d.next hni rest _ (by rw [h]; simp) hlt', h, hm]
        simp
      · rw [h, hnone b (by simp)] at hp; cases hp
      · have hpq : p = q := by
          rw [h] at hp
          simp only [bindIMRS, if_true] at hp
          injection hp with hp
          exact hp.symm
        subst hpq
        subst hq
        have hqn : p < (buildStep (some p) d b).next :=
          lt_of_lt_of_le (hf.2.1 p rfl) (buildStep_next_le _ d b)
        rw [buildFrom_imrs_modes p rest _ hqn hlt' (by rw [h]; simp [bindIMRS])]
        simp [ht, modesOfType]
        rfl
    · apply ih _ (buildStep_fresh imrs d b0 hf) ⟨hpw.2, hlt'⟩ _ b hbr p hp
      intro c hc
      rw [buildStep_table_other imrs d b0 _ (fun h => hpw.1 c hc h.symm)]
      exact hnone c (by simp [hc])

/-- C14, counterexample: a list with the DG-ID 10 twice, a YSF record
followed by a YSF2P25 record whose address does not resolve.  The second
record binds nothing, so after the build the slot of the YSF2P25 record is
bound, to the object of the YSF record, and its mask is 0x0F, not the 0x04 of
the type YSF2P25. -/
theorem C14_mask_of_other_record_counterexample :
    (build true sampleNet0
      [⟨⟨10, "YSF", false, 2, 3⟩, true, true⟩,
       ⟨⟨10, "YSF2P25", false, 2, 3⟩, false, true⟩]).dgIdNetwork 10 = some 1 ∧
    ((build true sampleNet0
      [⟨⟨10, "YSF", false, 2, 3⟩, true, true⟩,
       ⟨⟨10, "YSF2P25", false, 2, 3⟩, false, true⟩]).net 1).m_modes = 0x0F ∧
    modesOfType "YSF2P25" = some 0x04 := by
  decide

/-- C14, as amended: for a configuration list whose records have pairwise
distinct DG-IDs, all below 100, and every record of the list whose slot is
bound after the directory build, the allowed-modes mask of the binding is the
one that goes with the type of the record: 0x0F for YSF, FCS, IMRS and
Parrot, 0x03 for YSF2DMR and YSF2NXDN, 0x04 for YSF2P25; in particular the
type is one of these seven. -/
theorem C14_modes_determined_by_type (imrsOpened : Bool) (net0 : Nat → CDGIdNetwork)
    (config : List BuildStep) (b : BuildStep) (p : Nat)
    (hkey : keyedByDGId config) (hb : b ∈ config)
    (hp : (build imrsOpened net0 config).dgIdNetwork b.data.m_dgId = some p) :
    modesOfType b.data.m_type = some ((build imrsOpened net0 config).net p).m_modes :=
  buildFrom_modes (imrsPointer imrsOpened) config (emptyDirectory net0)
    (emptyDirectory_fresh imrsOpened net0) hkey (fun _ _ => rfl) b hb p hp

/-- C14, as amended, at the sample configuration: the YSF2P25 record of slot 30 is bound
to the object 3, whose mask is 0x04. -/
theorem C14_modes_determined_by_type_witness :
    (build true sampleNet0 sampleConfig).dgIdNetwork 30 = some 3 ∧
    modesOfType "YSF2P25" = some ((build true sampleNet0 sampleConfig).net 3).m_modes ∧
    ((build true sampleNet0 sampleConfig).net 3).m_modes = 0x04 :=
  ⟨by decide,
   C14_modes_determined_by_type true sampleNet0 sampleConfig
    ⟨⟨30, "YSF2P25", false, 2, 3⟩, true, true⟩ 3 sampleConfig_keyed (by decide) (by decide),
   by decide⟩

end DGIdGateway
